import Mathlib

/-!
# Linpmem: the rogue-page physical read path

A shallow embedding of the kernel module's rogue-page mechanism
(`src/src/pte_mmap.c`, `src/src/pte_mmap.h`, `src/src/page_table.h`) and of the
physical read path built on it (`src/src/linpmem.c`), followed by the
properties proved of them.

Conventions of the embedding.

* 64-bit machine words are natural numbers; loads and stores of page-table
  entries reduce modulo `2 ^ 64`, bit fields are taken with `/` and `%`.
* There is one memory, a byte per kernel virtual address of the direct map.
  The byte at physical address `a` is the byte at `phys_to_virt a`; a page-table
  entry is the little-endian 8-byte object at its kernel pointer.  A store to
  the live rogue entry is therefore a store to physical memory, and a read of
  physical memory through the rogue page sees it.  User memory and the local
  `tmp` of `do_ioctl_read` are kept apart: the source does not say which frames
  back them.
* Pointers are natural numbers, `0` is `NULL`, pointer arithmetic does not
  wrap.  The only `PTE_METHOD_DATA` object of the module is
  `g_device_extension.pte_data`, so a `PPTE_METHOD_DATA` is either `NULL` or
  the address of that object.
* What the Linux kernel provides and the repository only uses (`pfn_valid`,
  `phys_to_virt`, the CR3 register, `CR3_ADDR_MASK`, the link address of
  `g_rogue_page`, which user addresses accept a copy) is collected in the
  parameter record `Kernel`.
* A call either returns, or sleeps in `mutex_lock` on a mutex that is already
  held, or stores through a `NULL` pointer; see `Result`.  The functions are
  modelled as run by one caller at a time; concurrent callers of
  `pte_mmap_read` are interleaved at the atomic steps the mutex gives them, see
  `thread_step` and `run_schedule`.
* The processor reads the rogue page through the translation it has cached for
  it, or through the live entry when nothing is cached; `tlb_flush` drops the
  cached translation.  There is one such cache: a caller that moves to another
  processor between `tlb_flush` and its read is outside the model, as are page
  faults on a non-present entry and the processor's own updates of accessed
  and dirty bits.
-/

namespace Linpmem

/-! ## Constants and kernel macros -/

/-- Page size, `pte_mmap.h:27`. -/
def PAGE_SIZE : Nat := 4096

/-- Width of a machine word: values of `uint64_t` are the naturals below `U64`. -/
def U64 : Nat := 2 ^ 64

/-- Kernel macro `offset_in_page(p)`: `p & ~PAGE_MASK`. -/
def offset_in_page (p : Nat) : Nat := p % PAGE_SIZE

/-- Kernel macro `__phys_to_pfn(p)`: `p >> PAGE_SHIFT`. -/
def __phys_to_pfn (p : Nat) : Nat := p / PAGE_SIZE

/-- Kernel macro `PFN_PHYS(x)`: `(phys_addr_t)(x) << PAGE_SHIFT`; its argument is
a value below `2 ^ 40` at every use, so the shift does not overflow 64 bits. -/
def PFN_PHYS (x : Nat) : Nat := x * PAGE_SIZE

/-- Kernel macro `IS_ALIGNED(x, a)`: `(x & (a - 1)) == 0` for a power of two `a`. -/
def IS_ALIGNED (x a : Nat) : Bool := x % a == 0

/-- Kernel macro `PAGE_ALIGNED(addr)`. -/
def PAGE_ALIGNED (addr : Nat) : Bool := IS_ALIGNED addr PAGE_SIZE

/-- Kernel errno `EFAULT`. -/
def EFAULT : Int := 14

/-- Kernel errno `EINVAL`. -/
def EINVAL : Int := 22

/-- Kernel errno for an input/output error, `EIO`. -/
def  EIO : Int := 5

/-! ## Access modes, `linpmem_shared.h:48-54` -/

def PHYS_BYTE_READ : Nat := 1

def PHYS_WORD_READ : Nat := 2

def PHYS_DWORD_READ : Nat := 4

def PHYS_QWORD_READ : Nat := 8

def PHYS_BUFFER_READ : Nat := 9

/-! ## Bit fields of the unions in `pte_mmap.h` -/

/-- Field `offset : 12` of `VIRT_ADDR`. -/
def VIRT_ADDR.offset (v : Nat) : Nat := v % 2 ^ 12

/-- Field `pt_index : 9` of `VIRT_ADDR`. -/
def VIRT_ADDR.pt_index (v : Nat) : Nat := v / 2 ^ 12 % 2 ^ 9

/-- Field `pd_index : 9` of `VIRT_ADDR`. -/
def VIRT_ADDR.pd_index (v : Nat) : Nat := v / 2 ^ 21 % 2 ^ 9

/-- Field `pdpt_index : 9` of `VIRT_ADDR`. -/
def VIRT_ADDR.pdpt_index (v : Nat) : Nat := v / 2 ^ 30 % 2 ^ 9

/-- Field `pml4_index : 9` of `VIRT_ADDR`. -/
def VIRT_ADDR.pml4_index (v : Nat) : Nat := v / 2 ^ 39 % 2 ^ 9

/-- Field `reserved : 16` of `VIRT_ADDR`. -/
def VIRT_ADDR.reserved (v : Nat) : Nat := v / 2 ^ 48 % 2 ^ 16

/-- Field `present : 1` of `PML4E`. -/
def PML4E.present (e : Nat) : Nat := e % 2

/-- Field `pdpt_p : 40` of `PML4E`. -/
def PML4E.pdpt_p (e : Nat) : Nat := e / 2 ^ 12 % 2 ^ 40

/-- Field `present : 1` of `PDPTE`. -/
def PDPTE.present (e : Nat) : Nat := e % 2

/-- Field `large_page : 1` of `PDPTE`. -/
def PDPTE.large_page (e : Nat) : Nat := e / 2 ^ 7 % 2

/-- Field `pd_p : 40` of `PDPTE`. -/
def PDPTE.pd_p (e : Nat) : Nat := e / 2 ^ 12 % 2 ^ 40

/-- Field `present : 1` of `PDE`. -/
def PDE.present (e : Nat) : Nat := e % 2

/-- Field `large_page : 1` of `PDE`. -/
def PDE.large_page (e : Nat) : Nat := e / 2 ^ 7 % 2

/-- Field `pt_p : 40` of `PDE`. -/
def PDE.pt_p (e : Nat) : Nat := e / 2 ^ 12 % 2 ^ 40

/-- Field `present : 1` of `PTE`. -/
def PTE.present (e : Nat) : Nat := e % 2

/-- Field `large_page : 1` of `PTE` (PAT/PS). -/
def PTE.large_page (e : Nat) : Nat := e / 2 ^ 7 % 2

/-- Field `page_frame : 40` of `PTE`, bits 12 to 51. -/
def PTE.page_frame (e : Nat) : Nat := e / 2 ^ 12 % 2 ^ 40

/-- The assignment `pte.page_frame = pfn`: bits 12 to 51 are replaced by the low
40 bits of `pfn`, every other bit of the entry is kept. -/
def PTE.set_page_frame (e pfn : Nat) : Nat :=
  e % 2 ^ 12 + pfn % 2 ^ 40 * 2 ^ 12 + e / 2 ^ 52 * 2 ^ 52

/-! ## Data model -/

/-- The enum `PTE_STATUS`, `pte_mmap.h:153-158`. -/
inductive PTE_STATUS where
  | PTE_SUCCESS
  | PTE_ERROR
  | PTE_ERROR_HUGE_PAGE
  | PTE_ERROR_RO_PTE
  deriving DecidableEq, Repr

/-- The struct `PTE_METHOD_DATA`, `pte_mmap.h:160-165`.  `rogue_va` is the
value of the `VIRT_ADDR` union, `rogue_pte` the pointer to the live entry
(`0` is `NULL`), `original_pte` the value of the saved `PTE`. -/
structure PTE_METHOD_DATA where
  pte_method_is_ready_to_use : Bool
  rogue_va : Nat
  rogue_pte : Nat
  original_pte : Nat

/-- A pointer to `PTE_METHOD_DATA`: `NULL`, or the address of
`g_device_extension.pte_data`, the only such object in the module. -/
inductive PPTE_METHOD_DATA where
  | NULL
  | g_pte_data
  deriving DecidableEq, Repr

/-- The struct `LINPMEM_DATA_TRANSFER`, `linpmem_shared.h:66-122`. -/
structure LINPMEM_DATA_TRANSFER where
  phys_address : Nat
  out_value : Nat
  readbuffer : Nat
  readbuffer_size : Nat
  access_type : Nat
  write_access : Nat
  reserved1 : Nat
  reserved2 : Nat
  deriving DecidableEq, Repr

/-- The struct `LINPMEM_VTOP_INFO`, `linpmem_shared.h:128-149`; `ppte` is a
pointer, `0` is `NULL`. -/
structure LINPMEM_VTOP_INFO where
  virt_address : Nat
  associated_cr3 : Nat
  phys_address : Nat
  ppte : Nat
  deriving DecidableEq, Repr

/-- What the running kernel provides to the module. -/
structure Kernel where
  /-- Kernel predicate `pfn_valid` on frame numbers. -/
  pfn_valid : Nat → Bool
  /-- Kernel function `phys_to_virt` (the direct map). -/
  phys_to_virt : Nat → Nat
  /-- Value of `__native_read_cr3()` in the calling context. -/
  native_read_cr3 : Nat
  /-- Kernel constant `CR3_ADDR_MASK`. -/
  CR3_ADDR_MASK : Nat
  /-- Address of the static buffer `g_rogue_page`. -/
  g_rogue_page : Nat
  /-- Whether a byte of user memory accepts a store from `_copy_to_user`. -/
  user_writable : Nat → Bool

/-- The machine state the module acts on. -/
structure Machine where
  /-- The object `g_device_extension.pte_data`. -/
  pte_data : PTE_METHOD_DATA
  /-- Whether `g_rogue_page_mutex` is held. -/
  mutex_locked : Bool
  /-- Interrupt flag of the current processor (`cli` clears it, `sti` sets it). -/
  irq_enabled : Bool
  /-- Memory, a byte per kernel virtual address of the direct map; the byte at
  physical address `a` is `mem (phys_to_virt a)`.  The page-table entries are
  8-byte objects in it.  Only the module's own stores change it; the
  processor's updates of accessed and dirty bits are outside the model. -/
  mem : Nat → Nat
  /-- The translation of the rogue page cached by the current processor: the
  entry value it was loaded from, or `none` when nothing is cached. -/
  tlb : Option Nat
  /-- User memory, a byte per user address, kept apart from `mem`: the source
  does not say which frames back a caller's buffer. -/
  user : Nat → Nat
  /-- The 8-byte local object `tmp` of `do_ioctl_read`, which `buf` points to in
  the fixed-width modes, kept apart from `mem` likewise. -/
  tmp : Nat
  /-- Ghost counter: how often `pte_remap_rogue_page_locked` was entered. -/
  remap_calls : Nat

/-- How a call ends: it returns a value in a new state, or it sleeps in
`mutex_lock` because the mutex is already held, or it stores through `NULL`. -/
inductive Result (α : Type) where
  | ret (val : α) (s : Machine)
  | blocked
  | fault

/-- The returned value of a call that returned. -/
def Result.val? {α : Type} : Result α → Option α
  | .ret v _ => some v
  | .blocked => none
  | .fault => none

/-- The state after a call that returned. -/
def Result.state? {α : Type} : Result α → Option Machine
  | .ret _ s => some s
  | .blocked => none
  | .fault => none

/-! ## Memory primitives -/

/-- A 64-bit load from kernel memory: the little-endian value of the 8 bytes at
`p`. -/
def load64 (m : Nat → Nat) (p : Nat) : Nat :=
  m p % 256 + m (p + 1) % 256 * 2 ^ 8 + m (p + 2) % 256 * 2 ^ 16 + m (p + 3) % 256 * 2 ^ 24
    + m (p + 4) % 256 * 2 ^ 32 + m (p + 5) % 256 * 2 ^ 40 + m (p + 6) % 256 * 2 ^ 48
    + m (p + 7) % 256 * 2 ^ 56

/-- A 64-bit store to kernel memory (`WRITE_ONCE` of a `uint64_t`): the 8 bytes
at `p` receive the little-endian bytes of `v`. -/
def store64 (m : Nat → Nat) (p v : Nat) : Nat → Nat :=
  fun q => if p ≤ q ∧ q < p + 8 then v / 2 ^ (8 * (q - p)) % 256 else m q

/-- The byte of physical memory at physical address `a`, read through the direct
map. -/
def Machine.phys (s : Machine) (k : Kernel) (a : Nat) : Nat := s.mem (k.phys_to_virt a)

/-- The live rogue entry: the entry `pte_data.rogue_pte` points to. -/
def live_pte (s : Machine) : Nat := load64 s.mem s.pte_data.rogue_pte

/-- Little-endian value of a list of bytes. -/
def le_value : List Nat → Nat
  | [] => 0
  | b :: bs => b + 256 * le_value bs

/-- A store of the `w` low bytes `v` into an 8-byte little-endian object: the
bytes above the first `w` are kept. -/
def store_le (old w v : Nat) : Nat := old / 2 ^ (8 * w) * 2 ^ (8 * w) + v % 2 ^ (8 * w)

/-- The entry the processor translates the rogue page with: the cached one if
there is one, the live entry otherwise. -/
def rogue_translation (s : Machine) : Nat :=
  match s.tlb with
  | some e => e
  | none => live_pte s

/-- A read of `n` bytes at virtual address `va` inside the rogue page.  The
processor translates through `rogue_translation` and keeps that translation
cached; byte `i` is the byte of physical memory in the translated frame at the
in-page offset of `va + i`.  The source never lets such a read leave the
page. -/
def rogue_read (k : Kernel) (s : Machine) (va n : Nat) : List Nat × Machine :=
  if n = 0 then ([], s)
  else
    let e := rogue_translation s
    ((List.range n).map fun i =>
        s.phys k (PFN_PHYS (PTE.page_frame e) + (va + i) % PAGE_SIZE) % 256,
     { s with tlb := some e })

/-- Kernel primitive `_copy_to_user(to, from, n)`, here given the bytes read at
`from`: bytes are stored to user memory in ascending order up to the first
address that does not accept a store; the result is the number of bytes that
were not copied (`0` on success). -/
def _copy_to_user (k : Kernel) : Machine → Nat → List Nat → Nat × Machine
  | s, _, [] => (0, s)
  | s, dst, b :: bs =>
    if k.user_writable dst then
      _copy_to_user k { s with user := Function.update s.user dst b } (dst + 1) bs
    else ((b :: bs).length, s)

/-- The inline function `r_cr3_pa`, `page_table.h:46-68`. -/
def r_cr3_pa (k : Kernel) : Nat := k.native_read_cr3 &&& k.CR3_ADDR_MASK

/-! ## `pte_mmap.c` -/

/-- The function `pte_remap_rogue_page_locked`, `pte_mmap.c:44-74`. -/
def pte_remap_rogue_page_locked (s : Machine) (pte_data : PPTE_METHOD_DATA) (new_pte : Nat) :
    Result PTE_STATUS :=
  let s := { s with remap_calls := s.remap_calls + 1 }
  match pte_data with
  | .NULL => .ret .PTE_ERROR s
  | .g_pte_data =>
    if s.pte_data.rogue_va = 0 then .ret .PTE_ERROR s
    else if s.mutex_locked then .blocked
    else
      -- mutex_lock(&g_rogue_page_mutex); pmem_x64cli();
      let s := { s with mutex_locked := true }
      let s := { s with irq_enabled := false }
      -- WRITE_ONCE((*pte_data->rogue_pte).value, new_pte.value);
      if s.pte_data.rogue_pte = 0 then .fault
      else
        let s := { s with mem := store64 s.mem s.pte_data.rogue_pte new_pte }
        -- tlb_flush((uint64_t)pte_data->rogue_va.pointer); pmem_x64sti();
        let s := { s with tlb := none }
        let s := { s with irq_enabled := true }
        .ret .PTE_SUCCESS s

/-- Last stage of `virt_find_pte`, `pte_mmap.c:226-250` ("Get the PTE and Page
Frame"): the entry of `vaddr` in the page table at kernel pointer `pt`. -/
def virt_find_pte_pt (s : Machine) (vaddr pt : Nat) : PTE_STATUS × Option Nat :=
  if pt = 0 then (.PTE_ERROR, some 0)
  else
    let final_ppte := pt + 8 * VIRT_ADDR.pt_index vaddr
    if final_ppte = 0 then (.PTE_ERROR, some 0)
    else if PTE.present (load64 s.mem final_ppte) = 0 then (.PTE_ERROR, some 0)
    else (.PTE_SUCCESS, some final_ppte)

/-- Third stage of `virt_find_pte`, `pte_mmap.c:192-224` ("Resolve the PT"): the
entry of `vaddr` in the page directory at kernel pointer `pd`; a large-page
entry is itself the result. -/
def virt_find_pte_pd (k : Kernel) (s : Machine) (vaddr pd : Nat) : PTE_STATUS × Option Nat :=
  if pd = 0 then (.PTE_ERROR, some 0)
  else
    let pde := pd + 8 * VIRT_ADDR.pd_index vaddr
    if PDE.present (load64 s.mem pde) = 0 then (.PTE_ERROR, some 0)
    else if PDE.large_page (load64 s.mem pde) ≠ 0 then (.PTE_SUCCESS, some pde)
    else virt_find_pte_pt s vaddr (k.phys_to_virt (PFN_PHYS (PDE.pt_p (load64 s.mem pde))))

/-- Second stage of `virt_find_pte`, `pte_mmap.c:163-190` ("Resolve the PDT"): the
entry of `vaddr` in the table at kernel pointer `pdpt`; a 1 GiB page is an
error. -/
def virt_find_pte_pdpt (k : Kernel) (s : Machine) (vaddr pdpt : Nat) :
    PTE_STATUS × Option Nat :=
  if pdpt = 0 then (.PTE_ERROR, some 0)
  else
    let pdpte := pdpt + 8 * VIRT_ADDR.pdpt_index vaddr
    if PDPTE.present (load64 s.mem pdpte) = 0 then (.PTE_ERROR, some 0)
    else if PDPTE.large_page (load64 s.mem pdpte) ≠ 0 then (.PTE_ERROR, some 0)
    else
      virt_find_pte_pd k s vaddr (k.phys_to_virt (PFN_PHYS (PDPTE.pd_p (load64 s.mem pdpte))))

/-- First stage of `virt_find_pte`, `pte_mmap.c:140-161` ("Resolve the PDPT"): the
entry of `vaddr` in the top-level table at kernel pointer `pml4`. -/
def virt_find_pte_pml4 (k : Kernel) (s : Machine) (vaddr pml4 : Nat) :
    PTE_STATUS × Option Nat :=
  if pml4 = 0 then (.PTE_ERROR, some 0)
  else
    let pml4e := pml4 + 8 * VIRT_ADDR.pml4_index vaddr
    if PML4E.present (load64 s.mem pml4e) = 0 then (.PTE_ERROR, some 0)
    else
      virt_find_pte_pdpt k s vaddr
        (k.phys_to_virt (PFN_PHYS (PML4E.pdpt_p (load64 s.mem pml4e))))

/-- The function `virt_find_pte`, `pte_mmap.c:91-254`; the four table levels
are the stages above, in the order of the source.  `pppte` tells whether the
out-pointer is non-null.  The second component is what the call stored to
`*pppte`: `none` when it stored nothing, otherwise the last value stored (the
first store is `*pppte = 0`). -/
def virt_find_pte (k : Kernel) (s : Machine) (vaddr : Nat) (pppte : Bool)
    (foreign_cr3_pa : Nat) : PTE_STATUS × Option Nat :=
  if vaddr = 0 ∨ pppte = false then (.PTE_ERROR, none)
  else
    -- *pppte = 0;
    let cr3 : Option Nat :=
      if foreign_cr3_pa = 0 then some (r_cr3_pa k)
      else if k.pfn_valid (__phys_to_pfn foreign_cr3_pa) then some foreign_cr3_pa
      else none
    match cr3 with
    | none => (.PTE_ERROR, some 0)
    | some cr3 =>
      if cr3 = 0 then (.PTE_ERROR, some 0)
      else virt_find_pte_pml4 k s vaddr (k.phys_to_virt cr3)

/-- The function `setup_pte_method`, `pte_mmap.c:256-294`. -/
def setup_pte_method (k : Kernel) (s : Machine) (pte_data : PPTE_METHOD_DATA) : Result Int :=
  match pte_data with
  | .NULL => .fault
  | .g_pte_data =>
    let s := { s with pte_data := { s.pte_data with pte_method_is_ready_to_use := false } }
    if PAGE_ALIGNED k.g_rogue_page = false then .ret (-1) s
    else
      let s := { s with pte_data := { s.pte_data with rogue_va := k.g_rogue_page } }
      let found := virt_find_pte k s s.pte_data.rogue_va true 0
      let s :=
        match found.2 with
        | some p => { s with pte_data := { s.pte_data with rogue_pte := p } }
        | none => s
      if found.1 ≠ .PTE_SUCCESS then .ret (-1) s
      else
        -- pte_data->original_pte.value = pte_data->rogue_pte->value;
        let s := { s with pte_data := { s.pte_data with original_pte := live_pte s } }
        if PTE.page_frame s.pte_data.original_pte = 0 then .ret (-1) s
        else
          .ret 0 { s with pte_data := { s.pte_data with pte_method_is_ready_to_use := true } }

/-- The function `restore_pte_method`, `pte_mmap.c:296-327`. -/
def restore_pte_method (k : Kernel) (s : Machine) (pte_data : PPTE_METHOD_DATA) : Result Unit :=
  match pte_data with
  | .NULL => .fault
  | .g_pte_data =>
    if s.pte_data.pte_method_is_ready_to_use = false then .ret () s
    else if PTE.page_frame s.pte_data.original_pte = 0 then .ret () s
    else
      match pte_remap_rogue_page_locked s pte_data s.pte_data.original_pte with
      | .blocked => .blocked
      | .fault => .fault
      | .ret pte_status s =>
        if pte_status ≠ .PTE_SUCCESS then .ret () s
        else
          -- if (g_rogue_page[0] == 'S') ... : one byte is read through the rogue page
          let s := (rogue_read k s k.g_rogue_page 1).2
          -- mutex_unlock(&g_rogue_page_mutex);
          .ret () { s with mutex_locked := false }

/-! ## `linpmem.c` -/

/-- The function `pte_mmap_read`, `linpmem.c:58-137`.  In the fixed-width modes
`buf` is the kernel pointer `&tmp` of the caller and the store through it goes
to `Machine.tmp`; in buffer mode `buf` is the user-space destination. -/
def pte_mmap_read (k : Kernel) (s : Machine) (pte_data : PPTE_METHOD_DATA)
    (phys_addr buf count access_mode : Nat) : Result Nat :=
  match pte_data with
  | .NULL => .ret 0 s
  | .g_pte_data =>
    let new_pte := s.pte_data.original_pte
    let page_offset := offset_in_page phys_addr
    let to_read := min (PAGE_SIZE - page_offset) count
    let pfn := __phys_to_pfn phys_addr
    if k.pfn_valid pfn = false then .ret 0 s
    else
      let new_pte := PTE.set_page_frame new_pte pfn
      match pte_remap_rogue_page_locked s pte_data new_pte with
      | .blocked => .blocked
      | .fault => .fault
      | .ret pte_status s =>
        if pte_status ≠ .PTE_SUCCESS then .ret 0 s
        else
          let va := (s.pte_data.rogue_va + page_offset) % U64
          -- the pair is (bytes_read, state) on reaching out_unlock
          let out : Nat × Machine :=
            if access_mode = PHYS_BYTE_READ then
              let r := rogue_read k s va 1
              (to_read, { r.2 with tmp := store_le r.2.tmp 1 (le_value r.1) })
            else if access_mode = PHYS_WORD_READ then
              if IS_ALIGNED page_offset 2 = false then (0, s)
              else
                let r := rogue_read k s va 2
                (to_read, { r.2 with tmp := store_le r.2.tmp 2 (le_value r.1) })
            else if access_mode = PHYS_DWORD_READ then
              if IS_ALIGNED page_offset 4 = false then (0, s)
              else
                let r := rogue_read k s va 4
                (to_read, { r.2 with tmp := store_le r.2.tmp 4 (le_value r.1) })
            else if access_mode = PHYS_QWORD_READ then
              if IS_ALIGNED page_offset 8 = false then (0, s)
              else
                let r := rogue_read k s va 8
                (to_read, { r.2 with tmp := store_le r.2.tmp 8 (le_value r.1) })
            else if access_mode = PHYS_BUFFER_READ then
              let r := rogue_read k s va to_read
              let c := _copy_to_user k r.2 buf r.1
              if c.1 ≠ 0 then (0, c.2) else (to_read, c.2)
            else (to_read, s)
          -- out_unlock: mutex_unlock(&g_rogue_page_mutex);
          .ret out.1 { out.2 with mutex_locked := false }

/-- The function `do_ioctl_read`, `linpmem.c:308-408`.  `userbuffer` is the
caller's record, `readable` and `writable` tell whether `copy_from_user` and
`copy_to_user` of the record succeed.  The result is the returned `long` and
the caller's record after the call. -/
def do_ioctl_read (k : Kernel) (s : Machine) (userbuffer : LINPMEM_DATA_TRANSFER)
    (readable writable : Bool) : Result (Int × LINPMEM_DATA_TRANSFER) :=
  if readable = false then .ret (- EFAULT, userbuffer) s
  else
    let data_transfer := userbuffer
    -- uint64_t tmp = 0; void *buf = &tmp;
    let s := { s with tmp := 0 }
    -- switch (data_transfer.access_type): (count, access_mode, buf) or -EINVAL
    let sel : Option (Nat × Nat × Nat) :=
      if data_transfer.access_type = PHYS_BYTE_READ then some (1, PHYS_BYTE_READ, 0)
      else if data_transfer.access_type = PHYS_WORD_READ then some (2, PHYS_WORD_READ, 0)
      else if data_transfer.access_type = PHYS_DWORD_READ then some (4, PHYS_DWORD_READ, 0)
      else if data_transfer.access_type = PHYS_QWORD_READ then some (8, PHYS_QWORD_READ, 0)
      else if data_transfer.access_type = PHYS_BUFFER_READ then
        if data_transfer.readbuffer_size = 0 ∨ data_transfer.readbuffer_size > PAGE_SIZE then none
        else if data_transfer.readbuffer = 0 then none
        else some (data_transfer.readbuffer_size, PHYS_BUFFER_READ, data_transfer.readbuffer)
      else none
    match sel with
    | none => .ret (- EINVAL, userbuffer) s
    | some (count, access_mode, buf) =>
      match pte_mmap_read k s .g_pte_data data_transfer.phys_address buf count access_mode with
      | .blocked => .blocked
      | .fault => .fault
      | .ret bytes_read s =>
        let data_transfer :=
          { data_transfer with out_value := if bytes_read = count then s.tmp else 0 }
        let ret : Int := if access_mode ≠ PHYS_BUFFER_READ ∧ bytes_read ≠ count then - EIO else 0
        let fin : Int × LINPMEM_DATA_TRANSFER :=
          if access_mode = PHYS_BUFFER_READ then
            if bytes_read ≤ count then (ret, { data_transfer with readbuffer_size := bytes_read })
            else (- EIO, { data_transfer with readbuffer_size := 0 })
          else (ret, data_transfer)
        if writable = false then .ret (- EFAULT, userbuffer) s
        else .ret fin s

/-- The function `do_ioctl_vtop`, `linpmem.c:228-306`.  `userbuffer` is the
caller's record, `readable` and `writable` tell whether `copy_from_user` and
`copy_to_user` of the record succeed.  The result is the returned `long` and
the caller's record after the call; the machine state is only read.  In the
large-page formula the sum `ppte->page_frame + in_va.pt_index` is formed before
`PFN_PHYS` widens it, in the type of the 40-bit bit field `page_frame` (gcc
gives a bit field wider than `int` its declared width), so it wraps modulo
`2 ^ 40`. -/
def do_ioctl_vtop (k : Kernel) (s : Machine) (userbuffer : LINPMEM_VTOP_INFO)
    (readable writable : Bool) : Int × LINPMEM_VTOP_INFO :=
  if readable = false then (- EFAULT, userbuffer)
  else
    let vtop_info := userbuffer
    if vtop_info.virt_address = 0 then (- EINVAL, userbuffer)
    else
      -- in_va.value = vtop_info.virt_address; page_offset = in_va.offset;
      -- in_va.value -= page_offset;
      let page_offset := VIRT_ADDR.offset vtop_info.virt_address
      let in_va := vtop_info.virt_address - page_offset
      let found := virt_find_pte k s in_va true vtop_info.associated_cr3
      -- the pair is (ret, vtop_info) on reaching out_usercopy
      let out : Int × LINPMEM_VTOP_INFO :=
        if found.1 ≠ .PTE_SUCCESS then (- EIO, { vtop_info with phys_address := 0, ppte := 0 })
        else
          -- on PTE_SUCCESS the walker has stored the entry pointer to ppte
          let ppte := found.2.getD 0
          if PTE.present (load64 s.mem ppte) ≠ 0 then
            if PTE.large_page (load64 s.mem ppte) = 0 then
              (0, { vtop_info with
                    phys_address := PFN_PHYS (PTE.page_frame (load64 s.mem ppte)) + page_offset
                    ppte := ppte })
            else
              (0, { vtop_info with
                    phys_address :=
                      PFN_PHYS
                          ((PTE.page_frame (load64 s.mem ppte) + VIRT_ADDR.pt_index in_va) % 2 ^ 40)
                        + page_offset
                    ppte := ppte })
          else (0, { vtop_info with phys_address := 0, ppte := 0 })
      if writable = false then (- EFAULT, userbuffer)
      else out

/-! ## States used to state the results -/

/-- The state in which a successful `pte_remap_rogue_page_locked s _ new_pte`
returns: counter advanced, mutex held, entry stored, cached translation
dropped, interrupts on again. -/
def remapped (s : Machine) (new_pte : Nat) : Machine :=
  { s with
    remap_calls := s.remap_calls + 1
    mutex_locked := true
    irq_enabled := true
    mem := store64 s.mem s.pte_data.rogue_pte new_pte
    tlb := none }

/-- The entry `pte_mmap_read` hands to the remapper for physical address
`phys_addr`: the saved original entry with the frame field replaced. -/
def read_target (s : Machine) (phys_addr : Nat) : Nat :=
  PTE.set_page_frame s.pte_data.original_pte (__phys_to_pfn phys_addr)

/-- The load of `w` bytes that a fixed-width `pte_mmap_read` of `phys_addr`
performs through the rogue page once the remap has succeeded. -/
def fixed_load (k : Kernel) (s : Machine) (phys_addr w : Nat) : List Nat × Machine :=
  rogue_read k (remapped s (read_target s phys_addr))
    ((s.pte_data.rogue_va + offset_in_page phys_addr) % U64) w

/-- The load of the bytes that a buffer-mode `pte_mmap_read` of `phys_addr`
performs through the rogue page once the remap has succeeded. -/
def buffer_load (k : Kernel) (s : Machine) (phys_addr count : Nat) : List Nat × Machine :=
  rogue_read k (remapped s (read_target s phys_addr))
    ((s.pte_data.rogue_va + offset_in_page phys_addr) % U64)
    (min (PAGE_SIZE - offset_in_page phys_addr) count)

/-- The copy to the user buffer that follows `buffer_load`. -/
def buffer_copy (k : Kernel) (s : Machine) (phys_addr buf count : Nat) : Nat × Machine :=
  _copy_to_user k (buffer_load k s phys_addr count).2 buf (buffer_load k s phys_addr count).1

/-- A call made on the rogue page after setup: a physical read
`pte_mmap_read(&g_device_extension.pte_data, ...)`, a bare
`pte_remap_rogue_page_locked(&g_device_extension.pte_data, new_pte)`, or the
`mutex_unlock(&g_rogue_page_mutex)` with which the caller of the remapper gives
the rogue page back. -/
inductive Call where
  | read (phys_addr buf count access_mode : Nat)
  | remap (new_pte : Nat)
  | unlock

/-- The state after one call, `none` when the call does not return. -/
def Call.run (k : Kernel) (s : Machine) : Call → Option Machine
  | .read phys_addr buf count access_mode =>
    (pte_mmap_read k s .g_pte_data phys_addr buf count access_mode).state?
  | .remap new_pte => (pte_remap_rogue_page_locked s .g_pte_data new_pte).state?
  | .unlock => some { s with mutex_locked := false }

/-- The state after a sequence of calls made one after the other, `none` when
one of them does not return. -/
def run_calls (k : Kernel) : Machine → List Call → Option Machine
  | s, [] => some s
  | s, c :: cs =>
    match c.run k s with
    | some s' => run_calls k s' cs
    | none => none

/-- A sequence of calls in which every call of the remapper is directly followed
by the caller's release of the mutex, as in both callers of the remapper in the
source. -/
def released : List Call → Bool
  | [] => true
  | .read _ _ _ _ :: cs => released cs
  | .remap _ :: .unlock :: cs => released cs
  | _ => false

/-- The root the walk starts from: the masked CR3 of the current context when
no foreign root is given, the foreign root when its frame is valid, `none`
when the foreign root is rejected. -/
def walk_root (k : Kernel) (foreign_cr3_pa : Nat) : Option Nat :=
  if foreign_cr3_pa = 0 then some (r_cr3_pa k)
  else if k.pfn_valid (__phys_to_pfn foreign_cr3_pa) then some foreign_cr3_pa
  else none

/-- Kernel pointer to the level-4 entry of `v` in the top-level table at
physical address `root`. -/
def pml4e_of (k : Kernel) (root v : Nat) : Nat :=
  k.phys_to_virt root + 8 * VIRT_ADDR.pml4_index v

/-- Kernel pointer to the level-3 entry of `v`, in the table the level-4 entry
names. -/
def pdpte_of (k : Kernel) (s : Machine) (root v : Nat) : Nat :=
  k.phys_to_virt (PFN_PHYS (PML4E.pdpt_p (load64 s.mem (pml4e_of k root v))))
    + 8 * VIRT_ADDR.pdpt_index v

/-- Kernel pointer to the level-2 entry of `v`, in the table the level-3 entry
names. -/
def pde_of (k : Kernel) (s : Machine) (root v : Nat) : Nat :=
  k.phys_to_virt (PFN_PHYS (PDPTE.pd_p (load64 s.mem (pdpte_of k s root v))))
    + 8 * VIRT_ADDR.pd_index v

/-- Kernel pointer to the level-1 entry of `v`, in the table the level-2 entry
names. -/
def pte_of (k : Kernel) (s : Machine) (root v : Nat) : Nat :=
  k.phys_to_virt (PFN_PHYS (PDE.pt_p (load64 s.mem (pde_of k s root v))))
    + 8 * VIRT_ADDR.pt_index v

/-- The three conditions under which setup succeeds: the rogue buffer is
page-aligned, the walker resolves its entry in the current context, and the
frame number of that entry is not zero. -/
def setup_conditions (k : Kernel) (s : Machine) : Prop :=
  k.g_rogue_page % 4096 = 0 ∧
  ∃ p, virt_find_pte k s k.g_rogue_page true 0 = (.PTE_SUCCESS, some p) ∧
    PTE.page_frame (load64 s.mem p) ≠ 0

/-- The direct map gives no table the kernel pointer `NULL`. -/
def Kernel.direct_map_nonnull (k : Kernel) : Prop := ∀ pa, k.phys_to_virt pa ≠ 0

/-- The frames `pfn_valid` accepts fit the 40-bit frame field of an entry
(physical addresses of x86-64 have at most 52 bits). -/
def Kernel.frames_fit (k : Kernel) : Prop := ∀ pfn, k.pfn_valid pfn = true → pfn < 2 ^ 40

/-- An example kernel: one GiB of valid frames, direct map at
`0xffff888000000000`, user addresses `0x5000 .. 0x6fff` accept a copy. -/
def exKernel : Kernel where
  pfn_valid := fun pfn => decide (pfn < 0x100000)
  phys_to_virt := fun pa => 0xffff888000000000 + pa
  native_read_cr3 := 0x1000
  CR3_ADDR_MASK := 0x000ffffffffff000
  g_rogue_page := 0xffffffffc0002000
  user_writable := fun a => decide (0x5000 ≤ a ∧ a < 0x7000)

/-- Example memory for `exKernel`: the four pages at physical `0x1000 .. 0x4fff`
hold page tables, whose 64-bit entry at kernel pointer `p` is `table p`; every
other byte at physical address `a` holds `a % 251`. -/
def exMem (table : Nat → Nat) : Nat → Nat := fun p =>
  if 0xffff888000001000 ≤ p ∧ p < 0xffff888000005000 then
    table (p - p % 8) / 2 ^ (8 * (p % 8)) % 256
  else (p - 0xffff888000000000) % 251

/-- Page tables that map the rogue page `0xffffffffc0002000` (indices 511, 511,
0, 2) through tables at physical `0x1000`, `0x2000`, `0x3000`, `0x4000` to frame
`0x42`. -/
def exBootTable : Nat → Nat := fun p =>
  if p = 0xffff888000001ff8 then 0x2063
  else if p = 0xffff888000002ff8 then 0x3063
  else if p = 0xffff888000003000 then 0x4063
  else if p = 0xffff888000004010 then 0x8000000000042063
  else 0

/-- The tables of `exBootTable` with the low half of the address space mapped as
well: virtual page 0 and page 5 are 4 KiB pages on frames `0x42` and `0x47`, the
2 MiB page at `0x200000` is a large page on frame `0x800`, the 1 GiB region at
`0x40000000` is a 1 GiB page, and nothing is mapped at `0x80000000`. -/
def exLowTable : Nat → Nat := fun p =>
  if p = 0xffff888000001000 then 0x2063
  else if p = 0xffff888000002000 then 0x3063
  else if p = 0xffff888000002008 then 0x400000e3
  else if p = 0xffff888000003008 then 0x8000e3
  else if p = 0xffff888000004000 then 0x42063
  else if p = 0xffff888000004028 then 0x47063
  else exBootTable p

/-- An example state before setup: `g_device_extension` is zero-initialised, the
page tables are those of `exBootTable`, and a physical byte outside the tables
at address `a` holds `a % 251`. -/
def exBoot : Machine where
  pte_data :=
    { pte_method_is_ready_to_use := false, rogue_va := 0, rogue_pte := 0, original_pte := 0 }
  mutex_locked := false
  irq_enabled := true
  mem := exMem exBootTable
  tlb := none
  user := fun _ => 0
  tmp := 0
  remap_calls := 0

/-- The state `exBoot` after `setup_pte_method`: the live entry at
`0xffff888000004010` is resolved and its value `0x8000000000042063` saved. -/
def exSetUp : Machine :=
  { exBoot with
    pte_data :=
      { pte_method_is_ready_to_use := true
        rogue_va := 0xffffffffc0002000
        rogue_pte := 0xffff888000004010
        original_pte := 0x8000000000042063 } }

/-- The state `exSetUp` in which the processor caches the original translation
of the rogue page. -/
def exMachine : Machine := { exSetUp with tlb := some 0x8000000000042063 }

/-- The state `exMachine` with the readiness flag cleared. -/
def exNotReady : Machine :=
  { exMachine with pte_data := { exMachine.pte_data with pte_method_is_ready_to_use := false } }

/-- The state `exSetUp` whose level-1 entry for the rogue page has bit 7 set (the
PAT bit of a 4 KiB entry): `0x80000000000420e3`, frame `0x42`. -/
def exPat : Machine :=
  { exSetUp with
    mem := exMem fun p => if p = 0xffff888000004010 then 0x80000000000420e3 else exBootTable p }

/-- The state `exBoot` with the page tables of `exLowTable`. -/
def exLow : Machine := { exBoot with mem := exMem exLowTable }

/-- The state `exLow` in which the first 2 MiB of the address space are one large
page on frame `0x800`. -/
def exLow2M : Machine :=
  { exLow with
    mem := exMem fun p => if p = 0xffff888000003000 then 0x8000e3 else exLowTable p }

/-- The state `exLow` in which the level-2 entry of the 2 MiB page at `0x200000` is
`0x000ffffffffff0e3`: present, large, frame field `0xffffffffff`. -/
def exWrap : Machine :=
  { exLow with
    mem := exMem fun p =>
      if p = 0xffff888000003008 then 0x000ffffffffff0e3 else exLowTable p }

/-- A translation request record for `virt_address` in the current context. -/
def exVtop (virt_address : Nat) : LINPMEM_VTOP_INFO where
  virt_address := virt_address
  associated_cr3 := 0
  phys_address := 0
  ppte := 0

/-- A buffer-mode request record. -/
def exBufRequest (phys_address readbuffer readbuffer_size : Nat) : LINPMEM_DATA_TRANSFER where
  phys_address := phys_address
  out_value := 0
  readbuffer := readbuffer
  readbuffer_size := readbuffer_size
  access_type := PHYS_BUFFER_READ
  write_access := 0
  reserved1 := 0
  reserved2 := 0

/-- A fixed-width request record. -/
def exRequest (phys_address access_type : Nat) : LINPMEM_DATA_TRANSFER where
  phys_address := phys_address
  out_value := 0
  readbuffer := 0
  readbuffer_size := 0
  access_type := access_type
  write_access := 0
  reserved1 := 0
  reserved2 := 0

/-- A sequence of calls that are all physical reads (`pte_mmap_read`). -/
def reads_only : List Call → Bool
  | [] => true
  | .read _ _ _ _ :: cs => reads_only cs
  | _ => false

/-- The physical addresses the reads of a sequence of calls ask for. -/
def requested : List Call → List Nat
  | [] => []
  | .read phys_addr _ _ _ :: cs => phys_addr :: requested cs
  | _ :: cs => requested cs

/-- The arguments of a call `pte_mmap_read(&g_device_extension.pte_data, ...)`. -/
structure Request where
  phys_addr : Nat
  buf : Nat
  count : Nat
  access_mode : Nat

/-- The function `pte_mmap_read` with a non-null `pte_data`, from its entry to the
return of `pte_remap_rogue_page_locked`, `linpmem.c:66-87`: `some n` when the
call returns `n` there, `none` when it goes on to the `switch`, holding the
mutex. -/
def pte_mmap_read_enter (k : Kernel) (s : Machine) (phys_addr : Nat) : Result (Option Nat) :=
  let new_pte := s.pte_data.original_pte
  let pfn := __phys_to_pfn phys_addr
  if k.pfn_valid pfn = false then .ret (some 0) s
  else
    let new_pte := PTE.set_page_frame new_pte pfn
    match pte_remap_rogue_page_locked s .g_pte_data new_pte with
    | .blocked => .blocked
    | .fault => .fault
    | .ret pte_status s => if pte_status ≠ .PTE_SUCCESS then .ret (some 0) s else .ret none s

/-- The `switch` of `pte_mmap_read`, `linpmem.c:89-130`, entered holding the
mutex: the value of `bytes_read`, the bytes loaded through the rogue page, and
the state on reaching `out_unlock`. -/
def pte_mmap_read_switch (k : Kernel) (s : Machine) (phys_addr buf count access_mode : Nat) :
    Nat × List Nat × Machine :=
  let page_offset := offset_in_page phys_addr
  let to_read := min (PAGE_SIZE - page_offset) count
  let va := (s.pte_data.rogue_va + page_offset) % U64
  if access_mode = PHYS_BYTE_READ then
    let r := rogue_read k s va 1
    (to_read, r.1, { r.2 with tmp := store_le r.2.tmp 1 (le_value r.1) })
  else if access_mode = PHYS_WORD_READ then
    if IS_ALIGNED page_offset 2 = false then (0, [], s)
    else
      let r := rogue_read k s va 2
      (to_read, r.1, { r.2 with tmp := store_le r.2.tmp 2 (le_value r.1) })
  else if access_mode = PHYS_DWORD_READ then
    if IS_ALIGNED page_offset 4 = false then (0, [], s)
    else
      let r := rogue_read k s va 4
      (to_read, r.1, { r.2 with tmp := store_le r.2.tmp 4 (le_value r.1) })
  else if access_mode = PHYS_QWORD_READ then
    if IS_ALIGNED page_offset 8 = false then (0, [], s)
    else
      let r := rogue_read k s va 8
      (to_read, r.1, { r.2 with tmp := store_le r.2.tmp 8 (le_value r.1) })
  else if access_mode = PHYS_BUFFER_READ then
    let r := rogue_read k s va to_read
    let c := _copy_to_user k r.2 buf r.1
    (if c.1 ≠ 0 then 0 else to_read, r.1, c.2)
  else (to_read, [], s)

/-- Where a caller of `pte_mmap_read` stands: before the return of the
remapper; past it, holding the mutex; at `out_unlock` with `bytes_read` set,
still holding the mutex; returned.  The last two record the bytes the caller
loaded through the rogue page. -/
inductive Pc where
  | start
  | locked
  | copied (bytes_read : Nat) (data : List Nat)
  | done (bytes_read : Nat) (data : List Nat)
  deriving DecidableEq

/-- One atomic step of a caller: the part up to the return of the remapper (a
caller that finds the mutex held sleeps in `mutex_lock` and stays where it is),
the `switch`, or `mutex_unlock` and return.  `none` when the step stores
through a null `rogue_pte`. -/
def thread_step (k : Kernel) (s : Machine) (q : Request) : Pc → Option (Machine × Pc)
  | .start =>
    match pte_mmap_read_enter k s q.phys_addr with
    | .ret (some n) s' => some (s', .done n [])
    | .ret none s' => some (s', .locked)
    | .blocked => some (s, .start)
    | .fault => none
  | .locked =>
    let c := pte_mmap_read_switch k s q.phys_addr q.buf q.count q.access_mode
    some (c.2.2, .copied c.1 c.2.1)
  | .copied n d => some ({ s with mutex_locked := false }, .done n d)
  | .done n d => some (s, .done n d)

theorem remap_cases (s : Machine) (p : PPTE_METHOD_DATA) (new_pte : Nat) :
    (pte_remap_rogue_page_locked s p new_pte
        = .ret .PTE_ERROR { s with remap_calls := s.remap_calls + 1 }
      ∧ (p = .NULL ∨ s.pte_data.rogue_va = 0)) ∨
    (pte_remap_rogue_page_locked s p new_pte = .blocked
      ∧ p = .g_pte_data ∧ s.pte_data.rogue_va ≠ 0 ∧ s.mutex_locked = true) ∨
    (pte_remap_rogue_page_locked s p new_pte = .fault
      ∧ p = .g_pte_data ∧ s.pte_data.rogue_va ≠ 0 ∧ s.mutex_locked = false
      ∧ s.pte_data.rogue_pte = 0) ∨
    (pte_remap_rogue_page_locked s p new_pte = .ret .PTE_SUCCESS (remapped s new_pte)
      ∧ p = .g_pte_data ∧ s.pte_data.rogue_va ≠ 0 ∧ s.mutex_locked = false
      ∧ s.pte_data.rogue_pte ≠ 0) := by
  cases p with
  | NULL => left; simp [pte_remap_rogue_page_locked]
  | g_pte_data =>
    by_cases hva : s.pte_data.rogue_va = 0
    · left; simp [pte_remap_rogue_page_locked, hva]
    · right
      by_cases hm : s.mutex_locked = true
      · left; simp [pte_remap_rogue_page_locked, hva, hm]
      · right
        have hm' : s.mutex_locked = false := by simpa using hm
        by_cases hp : s.pte_data.rogue_pte = 0
        · left; simp [pte_remap_rogue_page_locked, hva, hm', hp]
        · right; simp [pte_remap_rogue_page_locked, hva, hm', hp, remapped]

theorem store64_at (m : Nat → Nat) (p v i : Nat) (hi : i < 8) :
    store64 m p v (p + i) = v / 2 ^ (8 * i) % 256 := by
  simp only [store64]
  rw [if_pos ⟨Nat.le_add_right _ _, by omega⟩, Nat.add_sub_cancel_left]

theorem load64_store64_same (m : Nat → Nat) (p v : Nat) :
    load64 (store64 m p v) p = v % U64 := by
  have h0 := store64_at m p v 0 (by omega)
  rw [Nat.add_zero] at h0
  simp only [load64, h0, store64_at m p v 1 (by omega), store64_at m p v 2 (by omega),
    store64_at m p v 3 (by omega), store64_at m p v 4 (by omega), store64_at m p v 5 (by omega),
    store64_at m p v 6 (by omega), store64_at m p v 7 (by omega), U64]
  norm_num
  omega

theorem load64_lt (m : Nat → Nat) (p : Nat) : load64 m p < U64 := by
  simp only [load64, U64]
  omega

theorem load64_mod (m : Nat → Nat) (p : Nat) : load64 m p % U64 = load64 m p :=
  Nat.mod_eq_of_lt (load64_lt m p)

theorem live_pte_remapped (s : Machine) (new_pte : Nat) :
    live_pte (remapped s new_pte) = new_pte % U64 := by
  simp [live_pte, remapped, load64_store64_same]

theorem page_frame_mod_U64 (e : Nat) : PTE.page_frame (e % U64) = PTE.page_frame e := by
  simp only [PTE.page_frame, U64]
  omega

theorem page_frame_set_page_frame (e pfn : Nat) :
    PTE.page_frame (PTE.set_page_frame e pfn) = pfn % 2 ^ 40 := by
  simp only [PTE.page_frame, PTE.set_page_frame]
  omega

theorem set_page_frame_lt (e pfn : Nat) (h : e < U64) : PTE.set_page_frame e pfn < U64 := by
  simp only [PTE.set_page_frame, U64] at *
  omega

theorem copy_to_user_frame (k : Kernel) (s : Machine) (dst : Nat) (bs : List Nat) :
    (_copy_to_user k s dst bs).2 = { s with user := (_copy_to_user k s dst bs).2.user } := by
  induction bs generalizing s dst with
  | nil => simp [_copy_to_user]
  | cons b bs ih =>
    simp only [_copy_to_user]
    split
    · rw [ih]
    · rfl

theorem copy_to_user_eq_zero_iff (k : Kernel) (s : Machine) (dst : Nat) (bs : List Nat) :
    (_copy_to_user k s dst bs).1 = 0 ↔ ∀ i, i < bs.length → k.user_writable (dst + i) = true := by
  induction bs generalizing s dst with
  | nil => simp [_copy_to_user]
  | cons b bs ih =>
    simp only [_copy_to_user]
    split
    · next hw =>
      rw [ih]
      constructor
      · intro h i hi
        cases i with
        | zero => simpa using hw
        | succ j =>
          have := h j (by simpa using hi)
          rwa [show dst + (j + 1) = dst + 1 + j by omega]
      · intro h i hi
        have := h (i + 1) (by simpa using hi)
        rwa [show dst + (i + 1) = dst + 1 + i by omega] at this
    · next hw =>
      simp only [List.length_cons]
      constructor
      · intro h; omega
      · intro h
        exact absurd (h 0 (by omega)) (by simpa using hw)

theorem rogue_read_length (k : Kernel) (s : Machine) (va n : Nat) :
    (rogue_read k s va n).1.length = n := by
  unfold rogue_read
  split
  · next h => simp [h]
  · simp

theorem rogue_read_frame (k : Kernel) (s : Machine) (va n : Nat) :
    (rogue_read k s va n).2 = { s with tlb := (rogue_read k s va n).2.tlb } := by
  unfold rogue_read
  split <;> rfl

theorem pte_mmap_read_null (k : Kernel) (s : Machine) (X buf count mode : Nat) :
    pte_mmap_read k s .NULL X buf count mode = .ret 0 s := by
  simp [pte_mmap_read]

theorem pte_mmap_read_invalid (k : Kernel) (s : Machine) (p : PPTE_METHOD_DATA)
    (X buf count mode : Nat) (h : k.pfn_valid (__phys_to_pfn X) = false) :
    pte_mmap_read k s p X buf count mode = .ret 0 s := by
  cases p <;> simp [pte_mmap_read, h]

theorem pte_mmap_read_not_set_up (k : Kernel) (s : Machine)
    (X buf count mode : Nat) (hv : k.pfn_valid (__phys_to_pfn X) = true)
    (hva : s.pte_data.rogue_va = 0) :
    pte_mmap_read k s .g_pte_data X buf count mode
      = .ret 0 { s with remap_calls := s.remap_calls + 1 } := by
  simp [pte_mmap_read, hv, pte_remap_rogue_page_locked, hva]

theorem pte_mmap_read_blocked (k : Kernel) (s : Machine)
    (X buf count mode : Nat) (hv : k.pfn_valid (__phys_to_pfn X) = true)
    (hva : s.pte_data.rogue_va ≠ 0) (hm : s.mutex_locked = true) :
    pte_mmap_read k s .g_pte_data X buf count mode = .blocked := by
  simp [pte_mmap_read, hv, pte_remap_rogue_page_locked, hva, hm]

theorem pte_mmap_read_fault (k : Kernel) (s : Machine)
    (X buf count mode : Nat) (hv : k.pfn_valid (__phys_to_pfn X) = true)
    (hva : s.pte_data.rogue_va ≠ 0) (hm : s.mutex_locked = false)
    (hp : s.pte_data.rogue_pte = 0) :
    pte_mmap_read k s .g_pte_data X buf count mode = .fault := by
  simp [pte_mmap_read, hv, pte_remap_rogue_page_locked, hva, hm, hp]

theorem pte_mmap_read_buffer_eq (k : Kernel) (s : Machine)
    (X buf count : Nat) (hv : k.pfn_valid (__phys_to_pfn X) = true)
    (hva : s.pte_data.rogue_va ≠ 0) (hm : s.mutex_locked = false)
    (hp : s.pte_data.rogue_pte ≠ 0) :
    pte_mmap_read k s .g_pte_data X buf count PHYS_BUFFER_READ =
      .ret
        (if (buffer_copy k s X buf count).1 = 0
          then min (PAGE_SIZE - offset_in_page X) count else 0)
        { (buffer_copy k s X buf count).2 with mutex_locked := false } := by
  rcases remap_cases s .g_pte_data (read_target s X) with h | h | h | h
  · rcases h.2 with h2 | h2
    · cases h2
    · exact absurd h2 hva
  · rw [hm] at h; simp at h
  · exact absurd h.2.2.2.2 hp
  · have h1 := h.1
    simp only [read_target] at h1
    simp only [pte_mmap_read, hv, h1, buffer_copy, buffer_load, read_target]
    simp [PHYS_BUFFER_READ, PHYS_BYTE_READ, PHYS_WORD_READ, PHYS_DWORD_READ, PHYS_QWORD_READ,
      remapped]
    split <;> simp_all

theorem remapped_pte_data (s : Machine) (e : Nat) : (remapped s e).pte_data = s.pte_data := rfl

theorem is_aligned_eq_false (x a : Nat) : (IS_ALIGNED x a = false) ↔ x % a ≠ 0 := by
  simp [IS_ALIGNED]

theorem pte_mmap_read_fixed_eq (k : Kernel) (s : Machine)
    (X buf count w : Nat) (hw : w = 1 ∨ w = 2 ∨ w = 4 ∨ w = 8)
    (hv : k.pfn_valid (__phys_to_pfn X) = true)
    (hva : s.pte_data.rogue_va ≠ 0) (hm : s.mutex_locked = false)
    (hp : s.pte_data.rogue_pte ≠ 0) :
    pte_mmap_read k s .g_pte_data X buf count w =
      if offset_in_page X % w = 0 then
        .ret (min (PAGE_SIZE - offset_in_page X) count)
          { (fixed_load k s X w).2 with
            tmp := store_le (fixed_load k s X w).2.tmp w (le_value (fixed_load k s X w).1)
            mutex_locked := false }
      else .ret 0 { remapped s (read_target s X) with mutex_locked := false } := by
  rcases remap_cases s .g_pte_data (read_target s X) with h | h | h | h
  · rcases h.2 with h2 | h2
    · cases h2
    · exact absurd h2 hva
  · rw [hm] at h; simp at h
  · exact absurd h.2.2.2.2 hp
  · have h1 := h.1
    simp only [read_target] at h1
    simp only [pte_mmap_read, hv, h1]
    rcases hw with rfl | rfl | rfl | rfl
    · rw [if_pos (Nat.mod_one _)]
      rfl
    · by_cases ha : offset_in_page X % 2 = 0
      · have hb : ¬ (IS_ALIGNED (offset_in_page X) 2 = false) := by
          rw [is_aligned_eq_false]; simpa using ha
        rw [if_pos ha]
        simp only [PHYS_BYTE_READ, PHYS_WORD_READ, hb]
        rfl
      · have hb : IS_ALIGNED (offset_in_page X) 2 = false := by
          rw [is_aligned_eq_false]; exact ha
        rw [if_neg ha]
        simp only [PHYS_BYTE_READ, PHYS_WORD_READ, hb]
        rfl
    · by_cases ha : offset_in_page X % 4 = 0
      · have hb : ¬ (IS_ALIGNED (offset_in_page X) 4 = false) := by
          rw [is_aligned_eq_false]; simpa using ha
        rw [if_pos ha]
        simp only [PHYS_BYTE_READ, PHYS_WORD_READ, PHYS_DWORD_READ, hb]
        rfl
      · have hb : IS_ALIGNED (offset_in_page X) 4 = false := by
          rw [is_aligned_eq_false]; exact ha
        rw [if_neg ha]
        simp only [PHYS_BYTE_READ, PHYS_WORD_READ, PHYS_DWORD_READ, hb]
        rfl
    · by_cases ha : offset_in_page X % 8 = 0
      · have hb : ¬ (IS_ALIGNED (offset_in_page X) 8 = false) := by
          rw [is_aligned_eq_false]; simpa using ha
        rw [if_pos ha]
        simp only [PHYS_BYTE_READ, PHYS_WORD_READ, PHYS_DWORD_READ, PHYS_QWORD_READ, hb]
        rfl
      · have hb : IS_ALIGNED (offset_in_page X) 8 = false := by
          rw [is_aligned_eq_false]; exact ha
        rw [if_neg ha]
        simp only [PHYS_BYTE_READ, PHYS_WORD_READ, PHYS_DWORD_READ, PHYS_QWORD_READ, hb]
        rfl

theorem rogue_read_pte_data (k : Kernel) (s : Machine) (va n : Nat) :
    (rogue_read k s va n).2.pte_data = s.pte_data := by
  rw [rogue_read_frame]

theorem rogue_read_entries (k : Kernel) (s : Machine) (va n : Nat) :
    (rogue_read k s va n).2.mem = s.mem := by
  rw [rogue_read_frame]

theorem copy_to_user_pte_data (k : Kernel) (s : Machine) (dst : Nat) (bs : List Nat) :
    (_copy_to_user k s dst bs).2.pte_data = s.pte_data := by
  rw [copy_to_user_frame]

theorem copy_to_user_entries (k : Kernel) (s : Machine) (dst : Nat) (bs : List Nat) :
    (_copy_to_user k s dst bs).2.mem = s.mem := by
  rw [copy_to_user_frame]

theorem pte_mmap_read_returns (k : Kernel) (s : Machine)
    (X buf count mode : Nat) (hv : k.pfn_valid (__phys_to_pfn X) = true)
    (hva : s.pte_data.rogue_va ≠ 0) (hm : s.mutex_locked = false)
    (hp : s.pte_data.rogue_pte ≠ 0) :
    ∃ n s', pte_mmap_read k s .g_pte_data X buf count mode = .ret n s' ∧
      s'.mutex_locked = false ∧ s'.pte_data = s.pte_data ∧
      s'.mem = store64 s.mem s.pte_data.rogue_pte (read_target s X) ∧
      (n = 0 ∨ n = min (PAGE_SIZE - offset_in_page X) count) := by
  rcases remap_cases s .g_pte_data (read_target s X) with h | h | h | h
  · rcases h.2 with h2 | h2
    · cases h2
    · exact absurd h2 hva
  · rw [hm] at h; simp at h
  · exact absurd h.2.2.2.2 hp
  · have h1 := h.1
    simp only [read_target] at h1
    simp only [pte_mmap_read, hv, h1]
    refine ⟨_, _, rfl, rfl, ?_, ?_, ?_⟩
    · dsimp only
      split_ifs <;>
        simp only [rogue_read_pte_data, copy_to_user_pte_data, remapped_pte_data]
    · dsimp only
      split_ifs <;>
        simp only [rogue_read_entries, copy_to_user_entries] <;> rfl
    · dsimp only
      split_ifs <;> simp

theorem virt_find_pte_pt_success (s : Machine) (vaddr pt : Nat) (out : Option Nat)
    (h : virt_find_pte_pt s vaddr pt = (.PTE_SUCCESS, out)) :
    ∃ p, out = some p ∧ p ≠ 0 ∧ PTE.present (load64 s.mem p) = 1 := by
  unfold virt_find_pte_pt at h
  dsimp only at h
  split_ifs at h with h1 h2 h3
  · cases h
  · cases h
  · cases h
  · simp only [Prod.mk.injEq, true_and] at h
    subst h
    refine ⟨_, rfl, h2, ?_⟩
    simp only [PTE.present] at *
    omega

theorem virt_find_pte_pd_success (k : Kernel) (s : Machine) (vaddr pd : Nat) (out : Option Nat)
    (h : virt_find_pte_pd k s vaddr pd = (.PTE_SUCCESS, out)) :
    ∃ p, out = some p ∧ p ≠ 0 ∧ PTE.present (load64 s.mem p) = 1 := by
  unfold virt_find_pte_pd at h
  dsimp only at h
  split_ifs at h with h1 h2 h3
  · cases h
  · cases h
  · simp only [Prod.mk.injEq, true_and] at h
    subst h
    refine ⟨_, rfl, by omega, ?_⟩
    simp only [PTE.present, PDE.present] at *
    omega
  · exact virt_find_pte_pt_success s vaddr _ out h

theorem virt_find_pte_pdpt_success (k : Kernel) (s : Machine) (vaddr pdpt : Nat)
    (out : Option Nat) (h : virt_find_pte_pdpt k s vaddr pdpt = (.PTE_SUCCESS, out)) :
    ∃ p, out = some p ∧ p ≠ 0 ∧ PTE.present (load64 s.mem p) = 1 := by
  unfold virt_find_pte_pdpt at h
  dsimp only at h
  split_ifs at h with h1 h2 h3
  · cases h
  · cases h
  · cases h
  · exact virt_find_pte_pd_success k s vaddr _ out h

theorem virt_find_pte_pml4_success (k : Kernel) (s : Machine) (vaddr pml4 : Nat)
    (out : Option Nat) (h : virt_find_pte_pml4 k s vaddr pml4 = (.PTE_SUCCESS, out)) :
    ∃ p, out = some p ∧ p ≠ 0 ∧ PTE.present (load64 s.mem p) = 1 := by
  unfold virt_find_pte_pml4 at h
  dsimp only at h
  split_ifs at h with h1 h2
  · cases h
  · cases h
  · exact virt_find_pte_pdpt_success k s vaddr _ out h

theorem virt_find_pte_success (k : Kernel) (s : Machine) (vaddr : Nat) (pppte : Bool)
    (foreign_cr3_pa : Nat) (out : Option Nat)
    (h : virt_find_pte k s vaddr pppte foreign_cr3_pa = (.PTE_SUCCESS, out)) :
    ∃ p, out = some p ∧ p ≠ 0 ∧ PTE.present (load64 s.mem p) = 1 ∧ vaddr ≠ 0 := by
  unfold virt_find_pte at h
  by_cases hv : vaddr = 0 ∨ pppte = false
  · rw [if_pos hv] at h
    cases h
  · have hv0 : vaddr ≠ 0 := fun h0 => hv (Or.inl h0)
    rw [if_neg hv] at h
    dsimp only at h
    split at h
    · cases h
    · split_ifs at h
      · cases h
      · obtain ⟨p, h1, h2, h3⟩ := virt_find_pte_pml4_success k s vaddr _ out h
        exact ⟨p, h1, h2, h3, hv0⟩

theorem setup_success (k : Kernel) (s0 s1 : Machine) (p : PPTE_METHOD_DATA)
    (h : setup_pte_method k s0 p = .ret 0 s1) :
    s1.pte_data.pte_method_is_ready_to_use = true ∧
    s1.pte_data.rogue_va = k.g_rogue_page ∧
    s1.pte_data.rogue_va ≠ 0 ∧
    s1.pte_data.rogue_va % 4096 = 0 ∧
    s1.pte_data.rogue_pte ≠ 0 ∧
    s1.pte_data.original_pte = live_pte s1 ∧
    PTE.present s1.pte_data.original_pte = 1 ∧
    PTE.page_frame s1.pte_data.original_pte ≠ 0 ∧
    s1.mem = s0.mem ∧ s1.mutex_locked = s0.mutex_locked := by
  cases p with
  | NULL => simp [setup_pte_method] at h
  | g_pte_data =>
    unfold setup_pte_method at h
    dsimp only at h
    by_cases a1 : PAGE_ALIGNED k.g_rogue_page = false
    · rw [if_pos a1] at h
      simp at h
    · rw [if_neg a1] at h
      generalize hf : virt_find_pte k _ k.g_rogue_page true 0 = found at h
      obtain ⟨st, out⟩ := found
      dsimp only at h
      by_cases a2 : st ≠ .PTE_SUCCESS
      · rw [if_pos a2] at h
        simp at h
      · rw [if_neg a2] at h
        have hst : st = .PTE_SUCCESS := by simpa using a2
        subst hst
        obtain ⟨q, hq, hq0, hpres, hva0⟩ := virt_find_pte_success _ _ _ _ _ _ hf
        subst hq
        dsimp only at h
        split_ifs at h with a3
        · simp at h
        · simp only [Result.ret.injEq, true_and] at h
          subst h
          have hal : k.g_rogue_page % 4096 = 0 := by
            simpa [PAGE_ALIGNED, IS_ALIGNED, PAGE_SIZE] using a1
          exact ⟨rfl, rfl, hva0, hal, hq0, rfl, hpres, a3, rfl, rfl⟩

theorem pte_mmap_read_pte_data (k : Kernel) (s s' : Machine) (p : PPTE_METHOD_DATA)
    (X buf count mode r : Nat) (h : pte_mmap_read k s p X buf count mode = .ret r s') :
    s'.pte_data = s.pte_data := by
  cases p with
  | NULL => rw [pte_mmap_read_null] at h; cases h; rfl
  | g_pte_data =>
    by_cases hv : k.pfn_valid (__phys_to_pfn X) = true
    · by_cases hva : s.pte_data.rogue_va = 0
      · rw [pte_mmap_read_not_set_up k s _ _ _ _ hv hva] at h
        cases h; rfl
      · by_cases hm : s.mutex_locked = true
        · rw [pte_mmap_read_blocked k s _ _ _ _ hv hva hm] at h
          cases h
        · have hm' : s.mutex_locked = false := by simpa using hm
          by_cases hp : s.pte_data.rogue_pte = 0
          · rw [pte_mmap_read_fault k s _ _ _ _ hv hva hm' hp] at h
            cases h
          · obtain ⟨n, s1, h1, -, hpd, -⟩ := pte_mmap_read_returns k s X buf count mode hv hva
              hm' hp
            rw [h1] at h
            cases h
            exact hpd
    · have hv' : k.pfn_valid (__phys_to_pfn X) = false := by simpa using hv
      rw [pte_mmap_read_invalid k s _ _ _ _ _ hv'] at h
      cases h; rfl

theorem call_run_pte_data (k : Kernel) (s s' : Machine) (c : Call)
    (h : c.run k s = some s') : s'.pte_data = s.pte_data := by
  cases c with
  | read X buf count mode =>
    simp only [Call.run] at h
    cases hr : pte_mmap_read k s .g_pte_data X buf count mode with
    | ret r s1 =>
      rw [hr] at h
      simp only [Result.state?, Option.some.injEq] at h
      subst h
      exact pte_mmap_read_pte_data k s s1 _ X buf count mode r hr
    | blocked => rw [hr] at h; cases h
    | fault => rw [hr] at h; cases h
  | remap e =>
    simp only [Call.run] at h
    rcases remap_cases s .g_pte_data e with c | c | c | c
    · rw [c.1] at h
      simp only [Result.state?, Option.some.injEq] at h
      subst h; rfl
    · rw [c.1] at h; cases h
    · rw [c.1] at h; cases h
    · rw [c.1] at h
      simp only [Result.state?, Option.some.injEq] at h
      subst h; rfl
  | unlock =>
    simp only [Call.run, Option.some.injEq] at h
    subst h; rfl

theorem run_calls_pte_data (k : Kernel) (s s' : Machine) (cs : List Call)
    (h : run_calls k s cs = some s') : s'.pte_data = s.pte_data := by
  induction cs generalizing s with
  | nil =>
    simp only [run_calls, Option.some.injEq] at h
    subst h; rfl
  | cons c cs ih =>
    simp only [run_calls] at h
    cases hc : c.run k s with
    | none => rw [hc] at h; cases h
    | some s1 =>
      rw [hc] at h
      rw [ih s1 h, call_run_pte_data k s s1 c hc]

theorem restore_ready (k : Kernel) (s : Machine)
    (hr : s.pte_data.pte_method_is_ready_to_use = true)
    (hpf : PTE.page_frame s.pte_data.original_pte ≠ 0)
    (hva : s.pte_data.rogue_va ≠ 0) (hp : s.pte_data.rogue_pte ≠ 0)
    (hm : s.mutex_locked = false) :
    ∃ s3, restore_pte_method k s .g_pte_data = .ret () s3 ∧
      live_pte s3 = s.pte_data.original_pte % U64 ∧ s3.mutex_locked = false ∧
      s3.pte_data = s.pte_data := by
  rcases remap_cases s .g_pte_data s.pte_data.original_pte with c | c | c | c
  · rcases c.2 with h2 | h2
    · cases h2
    · exact absurd h2 hva
  · rw [hm] at c; simp at c
  · exact absurd c.2.2.2.2 hp
  · simp only [restore_pte_method, hr, hpf, c.1]
    refine ⟨_, rfl, ?_, rfl, ?_⟩
    · simp only [live_pte, rogue_read_entries, rogue_read_pte_data]
      exact live_pte_remapped s _
    · simp only [rogue_read_pte_data]
      rfl

theorem run_calls_released (k : Kernel) (s : Machine) (cs : List Call)
    (hva : s.pte_data.rogue_va ≠ 0) (hp : s.pte_data.rogue_pte ≠ 0)
    (hm : s.mutex_locked = false) (hc : released cs = true) :
    ∃ s', run_calls k s cs = some s' ∧ s'.mutex_locked = false := by
  induction cs using released.induct generalizing s with
  | case1 => exact ⟨s, rfl, hm⟩
  | case2 X buf count mode cs ih =>
    simp only [released] at hc
    have hret : ∃ s1, (Call.read X buf count mode).run k s = some s1 ∧
        s1.mutex_locked = false ∧ s1.pte_data = s.pte_data := by
      simp only [Call.run]
      by_cases hv : k.pfn_valid (__phys_to_pfn X) = true
      · obtain ⟨n, s1, h1, hm1, hd1, -⟩ := pte_mmap_read_returns k s X buf count mode hv hva hm hp
        exact ⟨s1, by rw [h1]; rfl, hm1, hd1⟩
      · have hv' : k.pfn_valid (__phys_to_pfn X) = false := by simpa using hv
        rw [pte_mmap_read_invalid k s _ _ _ _ _ hv']
        exact ⟨s, rfl, hm, rfl⟩
    obtain ⟨s1, h1, hm1, hd1⟩ := hret
    obtain ⟨s', h', hm'⟩ := ih s1 (by rw [hd1]; exact hva) (by rw [hd1]; exact hp) hm1 hc
    exact ⟨s', by simp only [run_calls, h1, h'], hm'⟩
  | case3 e cs ih =>
    simp only [released] at hc
    rcases remap_cases s .g_pte_data e with c | c | c | c
    · rcases c.2 with h2 | h2
      · cases h2
      · exact absurd h2 hva
    · rw [hm] at c; simp at c
    · exact absurd c.2.2.2.2 hp
    · obtain ⟨s', h', hm'⟩ := ih { remapped s e with mutex_locked := false } hva hp rfl hc
      refine ⟨s', ?_, hm'⟩
      simp only [run_calls, Call.run, c.1, Result.state?]
      exact h'
  | case4 cs h1 h2 h3 =>
    exfalso
    revert hc
    cases cs with
    | nil => exact absurd rfl h1
    | cons c cs =>
      cases c with
      | read X buf count mode => exact absurd rfl (h2 X buf count mode cs)
      | remap e =>
        cases cs with
        | nil => simp [released]
        | cons c2 cs2 =>
          cases c2 with
          | unlock => exact absurd rfl (h3 e cs2)
          | read _ _ _ _ => simp [released]
          | remap _ => simp [released]
      | unlock => simp [released]

/-! ## Lemmas on the walker -/

theorem virt_find_pte_eq (k : Kernel) (s : Machine) (v f : Nat) (hv : v ≠ 0) :
    virt_find_pte k s v true f =
      match walk_root k f with
      | none => (.PTE_ERROR, some 0)
      | some r => if r = 0 then (.PTE_ERROR, some 0)
                  else virt_find_pte_pml4 k s v (k.phys_to_virt r) := by
  unfold virt_find_pte walk_root
  rw [if_neg (by simp [hv])]

theorem virt_find_pte_guard (k : Kernel) (s : Machine) (v f : Nat) (b : Bool)
    (h : v = 0 ∨ b = false) : virt_find_pte k s v b f = (.PTE_ERROR, none) := by
  unfold virt_find_pte
  rw [if_pos h]

theorem virt_find_pte_pt_entries (s s' : Machine) (v pt : Nat) (h : s.mem = s'.mem) :
    virt_find_pte_pt s v pt = virt_find_pte_pt s' v pt := by
  unfold virt_find_pte_pt; rw [h]

theorem virt_find_pte_pd_entries (k : Kernel) (s s' : Machine) (v pd : Nat)
    (h : s.mem = s'.mem) :
    virt_find_pte_pd k s v pd = virt_find_pte_pd k s' v pd := by
  unfold virt_find_pte_pd; rw [h]; simp only [virt_find_pte_pt_entries s s' _ _ h]

theorem virt_find_pte_pdpt_entries (k : Kernel) (s s' : Machine) (v pdpt : Nat)
    (h : s.mem = s'.mem) :
    virt_find_pte_pdpt k s v pdpt = virt_find_pte_pdpt k s' v pdpt := by
  unfold virt_find_pte_pdpt; rw [h]; simp only [virt_find_pte_pd_entries k s s' _ _ h]

theorem virt_find_pte_pml4_entries (k : Kernel) (s s' : Machine) (v pml4 : Nat)
    (h : s.mem = s'.mem) :
    virt_find_pte_pml4 k s v pml4 = virt_find_pte_pml4 k s' v pml4 := by
  unfold virt_find_pte_pml4; rw [h]; simp only [virt_find_pte_pdpt_entries k s s' _ _ h]

theorem virt_find_pte_entries (k : Kernel) (s s' : Machine) (v f : Nat) (b : Bool)
    (h : s.mem = s'.mem) :
    virt_find_pte k s v b f = virt_find_pte k s' v b f := by
  unfold virt_find_pte; simp only [virt_find_pte_pml4_entries k s s' _ _ h]

theorem virt_find_pte_pml4_4k (k : Kernel) (s : Machine) (root v : Nat)
    (hn : k.direct_map_nonnull)
    (h4 : PML4E.present (load64 s.mem (pml4e_of k root v)) = 1)
    (h3 : PDPTE.present (load64 s.mem (pdpte_of k s root v)) = 1)
    (h3l : PDPTE.large_page (load64 s.mem (pdpte_of k s root v)) = 0)
    (h2 : PDE.present (load64 s.mem (pde_of k s root v)) = 1)
    (h2l : PDE.large_page (load64 s.mem (pde_of k s root v)) = 0)
    (h1 : PTE.present (load64 s.mem (pte_of k s root v)) = 1) :
    virt_find_pte_pml4 k s v (k.phys_to_virt root) = (.PTE_SUCCESS, some (pte_of k s root v)) := by
  have e4 : k.phys_to_virt root + 8 * VIRT_ADDR.pml4_index v = pml4e_of k root v := rfl
  have e3 : k.phys_to_virt (PFN_PHYS (PML4E.pdpt_p (load64 s.mem (pml4e_of k root v))))
      + 8 * VIRT_ADDR.pdpt_index v = pdpte_of k s root v := rfl
  have e2 : k.phys_to_virt (PFN_PHYS (PDPTE.pd_p (load64 s.mem (pdpte_of k s root v))))
      + 8 * VIRT_ADDR.pd_index v = pde_of k s root v := rfl
  have e1 : k.phys_to_virt (PFN_PHYS (PDE.pt_p (load64 s.mem (pde_of k s root v))))
      + 8 * VIRT_ADDR.pt_index v = pte_of k s root v := rfl
  have n1 : pte_of k s root v ≠ 0 := by
    have := hn (PFN_PHYS (PDE.pt_p (load64 s.mem (pde_of k s root v))))
    rw [← e1]; omega
  simp only [virt_find_pte_pml4, virt_find_pte_pdpt, virt_find_pte_pd, virt_find_pte_pt,
    hn _, e4, e3, e2, e1, h4, h3, h3l, h2, h2l, h1, n1]
  simp

theorem virt_find_pte_pml4_2m (k : Kernel) (s : Machine) (root v : Nat)
    (hn : k.direct_map_nonnull)
    (h4 : PML4E.present (load64 s.mem (pml4e_of k root v)) = 1)
    (h3 : PDPTE.present (load64 s.mem (pdpte_of k s root v)) = 1)
    (h3l : PDPTE.large_page (load64 s.mem (pdpte_of k s root v)) = 0)
    (h2 : PDE.present (load64 s.mem (pde_of k s root v)) = 1)
    (h2l : PDE.large_page (load64 s.mem (pde_of k s root v)) = 1) :
    virt_find_pte_pml4 k s v (k.phys_to_virt root) = (.PTE_SUCCESS, some (pde_of k s root v)) := by
  have e4 : k.phys_to_virt root + 8 * VIRT_ADDR.pml4_index v = pml4e_of k root v := rfl
  have e3 : k.phys_to_virt (PFN_PHYS (PML4E.pdpt_p (load64 s.mem (pml4e_of k root v))))
      + 8 * VIRT_ADDR.pdpt_index v = pdpte_of k s root v := rfl
  have e2 : k.phys_to_virt (PFN_PHYS (PDPTE.pd_p (load64 s.mem (pdpte_of k s root v))))
      + 8 * VIRT_ADDR.pd_index v = pde_of k s root v := rfl
  simp only [virt_find_pte_pml4, virt_find_pte_pdpt, virt_find_pte_pd,
    hn _, e4, e3, e2, h4, h3, h3l, h2, h2l]
  simp

theorem virt_find_pte_pml4_1g (k : Kernel) (s : Machine) (root v : Nat)
    (h3 : PDPTE.present (load64 s.mem (pdpte_of k s root v)) = 1)
    (h3l : PDPTE.large_page (load64 s.mem (pdpte_of k s root v)) = 1) :
    virt_find_pte_pml4 k s v (k.phys_to_virt root) = (.PTE_ERROR, some 0) := by
  have e4 : k.phys_to_virt root + 8 * VIRT_ADDR.pml4_index v = pml4e_of k root v := rfl
  have e3 : k.phys_to_virt (PFN_PHYS (PML4E.pdpt_p (load64 s.mem (pml4e_of k root v))))
      + 8 * VIRT_ADDR.pdpt_index v = pdpte_of k s root v := rfl
  unfold virt_find_pte_pml4
  dsimp only
  split_ifs
  · rfl
  · rfl
  · unfold virt_find_pte_pdpt
    dsimp only
    rw [e4, e3, h3, h3l]
    split_ifs <;> first | rfl | (exfalso; omega)

theorem virt_find_pte_pt_shape (s : Machine) (v pt : Nat) :
    virt_find_pte_pt s v pt = (.PTE_ERROR, some 0) ∨
    (virt_find_pte_pt s v pt = (.PTE_SUCCESS, some (pt + 8 * VIRT_ADDR.pt_index v)) ∧
      PTE.present (load64 s.mem (pt + 8 * VIRT_ADDR.pt_index v)) = 1) := by
  unfold virt_find_pte_pt
  dsimp only
  split_ifs with a b c
  · exact Or.inl rfl
  · exact Or.inl rfl
  · exact Or.inl rfl
  · exact Or.inr ⟨rfl, by simp only [PTE.present] at *; omega⟩

theorem virt_find_pte_pd_shape (k : Kernel) (s : Machine) (v pd : Nat) :
    virt_find_pte_pd k s v pd = (.PTE_ERROR, some 0) ∨
    (PDE.present (load64 s.mem (pd + 8 * VIRT_ADDR.pd_index v)) = 1 ∧
      ((PDE.large_page (load64 s.mem (pd + 8 * VIRT_ADDR.pd_index v)) = 1 ∧
          virt_find_pte_pd k s v pd = (.PTE_SUCCESS, some (pd + 8 * VIRT_ADDR.pd_index v))) ∨
        (PDE.large_page (load64 s.mem (pd + 8 * VIRT_ADDR.pd_index v)) = 0 ∧
          virt_find_pte_pd k s v pd = (.PTE_SUCCESS, some
            (k.phys_to_virt (PFN_PHYS (PDE.pt_p (load64 s.mem (pd + 8 * VIRT_ADDR.pd_index v))))
              + 8 * VIRT_ADDR.pt_index v)) ∧
          PTE.present (load64 s.mem
            (k.phys_to_virt (PFN_PHYS (PDE.pt_p (load64 s.mem (pd + 8 * VIRT_ADDR.pd_index v))))
              + 8 * VIRT_ADDR.pt_index v)) = 1))) := by
  unfold virt_find_pte_pd
  dsimp only
  split_ifs with a b c
  · exact Or.inl rfl
  · exact Or.inl rfl
  · refine Or.inr ⟨by simp only [PDE.present] at *; omega, Or.inl ⟨?_, rfl⟩⟩
    simp only [PDE.large_page] at *; omega
  · have hl : PDE.large_page (load64 s.mem (pd + 8 * VIRT_ADDR.pd_index v)) = 0 := by
      simpa using c
    rcases virt_find_pte_pt_shape s v
      (k.phys_to_virt (PFN_PHYS (PDE.pt_p (load64 s.mem (pd + 8 * VIRT_ADDR.pd_index v)))))
      with h | ⟨h, hp⟩
    · exact Or.inl h
    · exact Or.inr ⟨by simp only [PDE.present] at *; omega, Or.inr ⟨hl, h, hp⟩⟩

theorem virt_find_pte_pdpt_shape (k : Kernel) (s : Machine) (v pdpt : Nat) :
    virt_find_pte_pdpt k s v pdpt = (.PTE_ERROR, some 0) ∨
    (PDPTE.present (load64 s.mem (pdpt + 8 * VIRT_ADDR.pdpt_index v)) = 1 ∧
      PDPTE.large_page (load64 s.mem (pdpt + 8 * VIRT_ADDR.pdpt_index v)) = 0 ∧
      virt_find_pte_pdpt k s v pdpt = virt_find_pte_pd k s v (k.phys_to_virt
        (PFN_PHYS (PDPTE.pd_p (load64 s.mem (pdpt + 8 * VIRT_ADDR.pdpt_index v)))))) := by
  unfold virt_find_pte_pdpt
  dsimp only
  split_ifs with a b c
  · exact Or.inl rfl
  · exact Or.inl rfl
  · exact Or.inl rfl
  · exact Or.inr ⟨by simp only [PDPTE.present] at *; omega, by simpa using c, rfl⟩

theorem virt_find_pte_pml4_shape (k : Kernel) (s : Machine) (v pml4 : Nat) :
    virt_find_pte_pml4 k s v pml4 = (.PTE_ERROR, some 0) ∨
    (PML4E.present (load64 s.mem (pml4 + 8 * VIRT_ADDR.pml4_index v)) = 1 ∧
      virt_find_pte_pml4 k s v pml4 = virt_find_pte_pdpt k s v (k.phys_to_virt
        (PFN_PHYS (PML4E.pdpt_p (load64 s.mem (pml4 + 8 * VIRT_ADDR.pml4_index v)))))) := by
  unfold virt_find_pte_pml4
  dsimp only
  split_ifs with a b
  · exact Or.inl rfl
  · exact Or.inl rfl
  · exact Or.inr ⟨by simp only [PML4E.present] at *; omega, rfl⟩

/-- What a walk from the top-level table at physical `root` yields: the error
pair, or a large-page level-2 entry, or a level-1 entry, with every entry on
the way present. -/
theorem virt_find_pte_pml4_cases (k : Kernel) (s : Machine) (root v : Nat) :
    virt_find_pte_pml4 k s v (k.phys_to_virt root) = (.PTE_ERROR, some 0) ∨
    (PML4E.present (load64 s.mem (pml4e_of k root v)) = 1 ∧
      PDPTE.present (load64 s.mem (pdpte_of k s root v)) = 1 ∧
      PDPTE.large_page (load64 s.mem (pdpte_of k s root v)) = 0 ∧
      PDE.present (load64 s.mem (pde_of k s root v)) = 1 ∧
      ((PDE.large_page (load64 s.mem (pde_of k s root v)) = 1 ∧
          virt_find_pte_pml4 k s v (k.phys_to_virt root)
            = (.PTE_SUCCESS, some (pde_of k s root v))) ∨
        (PDE.large_page (load64 s.mem (pde_of k s root v)) = 0 ∧
          PTE.present (load64 s.mem (pte_of k s root v)) = 1 ∧
          virt_find_pte_pml4 k s v (k.phys_to_virt root)
            = (.PTE_SUCCESS, some (pte_of k s root v))))) := by
  rcases virt_find_pte_pml4_shape k s v (k.phys_to_virt root) with h | ⟨h4, e4⟩
  · exact Or.inl h
  · rw [e4]
    rcases virt_find_pte_pdpt_shape k s v _ with h | ⟨h3, h3l, e3⟩
    · exact Or.inl h
    · rw [e3]
      rcases virt_find_pte_pd_shape k s v _ with h | ⟨h2, h | h⟩
      · exact Or.inl h
      · exact Or.inr ⟨h4, h3, h3l, h2, Or.inl h⟩
      · exact Or.inr ⟨h4, h3, h3l, h2, Or.inr ⟨h.1, h.2.2, h.2.1⟩⟩

theorem virt_find_pte_status (k : Kernel) (s : Machine) (v f : Nat) (b : Bool) :
    (virt_find_pte k s v b f).1 = .PTE_ERROR ∨
    ∃ p, virt_find_pte k s v b f = (.PTE_SUCCESS, some p) := by
  by_cases hg : v = 0 ∨ b = false
  · rw [virt_find_pte_guard k s v f b hg]; exact Or.inl rfl
  · have hv : v ≠ 0 := fun h => hg (Or.inl h)
    have hb : b = true := by
      cases b
      · exact absurd (Or.inr rfl) hg
      · rfl
    subst hb
    rw [virt_find_pte_eq k s v f hv]
    cases walk_root k f with
    | none => exact Or.inl rfl
    | some r =>
      dsimp only
      split_ifs
      · exact Or.inl rfl
      · rcases virt_find_pte_pml4_cases k s r v with h | ⟨-, -, -, -, h | h⟩
        · rw [h]; exact Or.inl rfl
        · exact Or.inr ⟨_, h.2⟩
        · exact Or.inr ⟨_, h.2.2⟩

theorem virt_find_pte_fail_null (k : Kernel) (s : Machine) (v f : Nat) (hv : v ≠ 0) :
    (∃ p, virt_find_pte k s v true f = (.PTE_SUCCESS, some p)) ∨
    virt_find_pte k s v true f = (.PTE_ERROR, some 0) := by
  rw [virt_find_pte_eq k s v f hv]
  cases walk_root k f with
  | none => exact Or.inr rfl
  | some r =>
    dsimp only
    split_ifs
    · exact Or.inr rfl
    · rcases virt_find_pte_pml4_cases k s r v with h | ⟨-, -, -, -, h | h⟩
      · exact Or.inr h
      · exact Or.inl ⟨_, h.2⟩
      · exact Or.inl ⟨_, h.2.2⟩

theorem setup_eq_fail_unaligned (k : Kernel) (s : Machine)
    (h : k.g_rogue_page % 4096 ≠ 0) :
    setup_pte_method k s .g_pte_data = .ret (-1)
      { s with pte_data := { s.pte_data with pte_method_is_ready_to_use := false } } := by
  have a1 : PAGE_ALIGNED k.g_rogue_page = false := by
    simpa [PAGE_ALIGNED, IS_ALIGNED, PAGE_SIZE] using h
  simp only [setup_pte_method, a1, if_true]

theorem setup_cases (k : Kernel) (s : Machine) :
    ∃ s', setup_pte_method k s .g_pte_data
        = .ret (if PAGE_ALIGNED k.g_rogue_page = true ∧
                  (virt_find_pte k s k.g_rogue_page true 0).1 = .PTE_SUCCESS ∧
                  PTE.page_frame (load64 s.mem
                    ((virt_find_pte k s k.g_rogue_page true 0).2.getD 0)) ≠ 0
                then 0 else -1) s' ∧
      s'.pte_data.pte_method_is_ready_to_use
        = decide (PAGE_ALIGNED k.g_rogue_page = true ∧
                  (virt_find_pte k s k.g_rogue_page true 0).1 = .PTE_SUCCESS ∧
                  PTE.page_frame (load64 s.mem
                    ((virt_find_pte k s k.g_rogue_page true 0).2.getD 0)) ≠ 0) ∧
      s'.mem = s.mem ∧
      ((virt_find_pte k s k.g_rogue_page true 0).1 = .PTE_SUCCESS →
        PAGE_ALIGNED k.g_rogue_page = true →
        s'.pte_data.rogue_pte = (virt_find_pte k s k.g_rogue_page true 0).2.getD 0 ∧
        s'.pte_data.original_pte = load64 s.mem
          ((virt_find_pte k s k.g_rogue_page true 0).2.getD 0)) := by
  have hcong : virt_find_pte k
      { s with pte_data := { pte_method_is_ready_to_use := false, rogue_va := k.g_rogue_page,
                             rogue_pte := s.pte_data.rogue_pte,
                             original_pte := s.pte_data.original_pte } }
      k.g_rogue_page true 0 = virt_find_pte k s k.g_rogue_page true 0 :=
    virt_find_pte_entries k _ s _ _ _ rfl
  unfold setup_pte_method
  dsimp only
  by_cases a1 : PAGE_ALIGNED k.g_rogue_page = false
  · rw [if_pos a1]
    simp [a1]
  · have a1' : PAGE_ALIGNED k.g_rogue_page = true := by simpa using a1
    rw [if_neg a1, hcong]
    rcases virt_find_pte_status k s k.g_rogue_page 0 true with h | ⟨p, h⟩
    · generalize virt_find_pte k s k.g_rogue_page true 0 = found at h
      obtain ⟨st, out⟩ := found
      dsimp only at h
      subst h
      cases out <;> simp
    · rw [h]
      by_cases a3 : PTE.page_frame (load64 s.mem p) = 0
      · simp [a3, a1', live_pte]
      · simp [a3, a1', live_pte]

theorem strip_offset (v : Nat) :
    VIRT_ADDR.pml4_index (v - VIRT_ADDR.offset v) = VIRT_ADDR.pml4_index v ∧
    VIRT_ADDR.pdpt_index (v - VIRT_ADDR.offset v) = VIRT_ADDR.pdpt_index v ∧
    VIRT_ADDR.pd_index (v - VIRT_ADDR.offset v) = VIRT_ADDR.pd_index v ∧
    VIRT_ADDR.pt_index (v - VIRT_ADDR.offset v) = VIRT_ADDR.pt_index v := by
  simp only [VIRT_ADDR.pml4_index, VIRT_ADDR.pdpt_index, VIRT_ADDR.pd_index, VIRT_ADDR.pt_index,
    VIRT_ADDR.offset]
  omega

theorem pml4e_of_strip (k : Kernel) (root v : Nat) :
    pml4e_of k root (v - VIRT_ADDR.offset v) = pml4e_of k root v := by
  simp only [pml4e_of, (strip_offset v).1]

theorem pdpte_of_strip (k : Kernel) (s : Machine) (root v : Nat) :
    pdpte_of k s root (v - VIRT_ADDR.offset v) = pdpte_of k s root v := by
  simp only [pdpte_of, pml4e_of_strip, (strip_offset v).2.1]

theorem pde_of_strip (k : Kernel) (s : Machine) (root v : Nat) :
    pde_of k s root (v - VIRT_ADDR.offset v) = pde_of k s root v := by
  simp only [pde_of, pdpte_of_strip, (strip_offset v).2.2.1]

theorem pte_of_strip (k : Kernel) (s : Machine) (root v : Nat) :
    pte_of k s root (v - VIRT_ADDR.offset v) = pte_of k s root v := by
  simp only [pte_of, pde_of_strip, (strip_offset v).2.2.2]

theorem strip_ne_zero (v : Nat) (h : 4096 ≤ v) : v - VIRT_ADDR.offset v ≠ 0 := by
  simp only [VIRT_ADDR.offset]; omega

theorem virt_find_pte_of_root (k : Kernel) (s : Machine) (v f root : Nat) (hv : v ≠ 0)
    (hr : walk_root k f = some root) (hr0 : root ≠ 0) :
    virt_find_pte k s v true f = virt_find_pte_pml4 k s v (k.phys_to_virt root) := by
  rw [virt_find_pte_eq k s v f hv, hr]
  simp [hr0]

theorem do_ioctl_vtop_eq (k : Kernel) (s : Machine) (r : LINPMEM_VTOP_INFO)
    (hv : r.virt_address ≠ 0) :
    do_ioctl_vtop k s r true true =
      if (virt_find_pte k s (r.virt_address - VIRT_ADDR.offset r.virt_address) true
            r.associated_cr3).1 ≠ .PTE_SUCCESS
      then (- EIO, { r with phys_address := 0, ppte := 0 })
      else if PTE.present (load64 s.mem
          ((virt_find_pte k s (r.virt_address - VIRT_ADDR.offset r.virt_address) true
            r.associated_cr3).2.getD 0)) ≠ 0 then
        if PTE.large_page (load64 s.mem
          ((virt_find_pte k s (r.virt_address - VIRT_ADDR.offset r.virt_address) true
            r.associated_cr3).2.getD 0)) = 0 then
          (0, { r with
                phys_address := PFN_PHYS (PTE.page_frame (load64 s.mem
                  ((virt_find_pte k s (r.virt_address - VIRT_ADDR.offset r.virt_address) true
                    r.associated_cr3).2.getD 0))) + VIRT_ADDR.offset r.virt_address
                ppte := (virt_find_pte k s (r.virt_address - VIRT_ADDR.offset r.virt_address) true
                    r.associated_cr3).2.getD 0 })
        else
          (0, { r with
                phys_address := PFN_PHYS ((PTE.page_frame (load64 s.mem
                  ((virt_find_pte k s (r.virt_address - VIRT_ADDR.offset r.virt_address) true
                    r.associated_cr3).2.getD 0))
                    + VIRT_ADDR.pt_index (r.virt_address - VIRT_ADDR.offset r.virt_address))
                      % 2 ^ 40)
                  + VIRT_ADDR.offset r.virt_address
                ppte := (virt_find_pte k s (r.virt_address - VIRT_ADDR.offset r.virt_address) true
                    r.associated_cr3).2.getD 0 })
      else (0, { r with phys_address := 0, ppte := 0 }) := by
  simp only [do_ioctl_vtop, hv]
  simp

theorem do_ioctl_vtop_of_success (k : Kernel) (s : Machine) (r : LINPMEM_VTOP_INFO) (p : Nat)
    (hv : r.virt_address ≠ 0)
    (hw : virt_find_pte k s (r.virt_address - VIRT_ADDR.offset r.virt_address) true
      r.associated_cr3 = (.PTE_SUCCESS, some p))
    (hp : PTE.present (load64 s.mem p) = 1) :
    do_ioctl_vtop k s r true true =
      (0, { r with
            phys_address :=
              (if PTE.large_page (load64 s.mem p) = 0 then
                PTE.page_frame (load64 s.mem p) * 4096
              else (PTE.page_frame (load64 s.mem p) + VIRT_ADDR.pt_index r.virt_address)
                % 2 ^ 40 * 4096)
              + r.virt_address % 4096
            ppte := p }) := by
  rw [do_ioctl_vtop_eq k s r hv, hw]
  simp only [Option.getD, hp, (strip_offset r.virt_address).2.2.2]
  by_cases hl : PTE.large_page (load64 s.mem p) = 0
  · simp [hl, PFN_PHYS, PAGE_SIZE, VIRT_ADDR.offset]
  · simp [hl, PFN_PHYS, PAGE_SIZE, VIRT_ADDR.offset]

theorem exKernel_direct_map_nonnull : exKernel.direct_map_nonnull := by
  intro pa
  simp only [exKernel]
  omega

theorem do_ioctl_read_reject (k : Kernel) (s : Machine) (r : LINPMEM_DATA_TRANSFER)
    (writable : Bool)
    (h : (r.access_type ≠ 1 ∧ r.access_type ≠ 2 ∧ r.access_type ≠ 4 ∧ r.access_type ≠ 8 ∧
          r.access_type ≠ 9) ∨
        (r.access_type = 9 ∧
          (r.readbuffer_size = 0 ∨ 4096 < r.readbuffer_size ∨ r.readbuffer = 0))) :
    do_ioctl_read k s r true writable = .ret (- EINVAL, r) { s with tmp := 0 } := by
  rcases h with ⟨a1, a2, a4, a8, a9⟩ | ⟨a9, hb⟩
  · simp [do_ioctl_read, PHYS_BYTE_READ, PHYS_WORD_READ, PHYS_DWORD_READ, PHYS_QWORD_READ,
      PHYS_BUFFER_READ, a1, a2, a4, a8, a9]
  · rcases hb with hb | hb | hb
    · simp [do_ioctl_read, PHYS_BYTE_READ, PHYS_WORD_READ, PHYS_DWORD_READ, PHYS_QWORD_READ,
        PHYS_BUFFER_READ, a9, hb]
    · simp [do_ioctl_read, PHYS_BYTE_READ, PHYS_WORD_READ, PHYS_DWORD_READ, PHYS_QWORD_READ,
        PHYS_BUFFER_READ, a9, PAGE_SIZE, hb]
    · by_cases hz : r.readbuffer_size = 0 ∨ r.readbuffer_size > PAGE_SIZE
      · simp [do_ioctl_read, PHYS_BYTE_READ, PHYS_WORD_READ, PHYS_DWORD_READ, PHYS_QWORD_READ,
          PHYS_BUFFER_READ, a9, hz]
      · simp [do_ioctl_read, PHYS_BYTE_READ, PHYS_WORD_READ, PHYS_DWORD_READ, PHYS_QWORD_READ,
          PHYS_BUFFER_READ, a9, hz, hb]

theorem set_page_frame_low (e pfn : Nat) :
    PTE.set_page_frame e pfn % 2 ^ 12 = e % 2 ^ 12 := by
  simp only [PTE.set_page_frame]; omega

theorem set_page_frame_high (e pfn : Nat) :
    PTE.set_page_frame e pfn / 2 ^ 52 = e / 2 ^ 52 := by
  simp only [PTE.set_page_frame]; omega

theorem testBit_of_low_high (a b i : Nat) (hl : a % 2 ^ 12 = b % 2 ^ 12)
    (hh : a / 2 ^ 52 = b / 2 ^ 52) (hi : i < 12 ∨ 52 ≤ i) :
    a.testBit i = b.testBit i := by
  rcases hi with hi | hi
  · have ha := Nat.testBit_mod_two_pow a 12 i
    have hb := Nat.testBit_mod_two_pow b 12 i
    simp only [hi, decide_True, Bool.true_and] at ha hb
    rw [← ha, ← hb, hl]
  · obtain ⟨j, rfl⟩ := Nat.exists_eq_add_of_le hi
    have ha : (a >>> 52).testBit j = a.testBit (52 + j) := Nat.testBit_shiftRight a
    have hb : (b >>> 52).testBit j = b.testBit (52 + j) := Nat.testBit_shiftRight b
    rw [Nat.shiftRight_eq_div_pow] at ha hb
    rw [← ha, ← hb, hh]

theorem set_page_frame_present (e pfn : Nat) :
    PTE.present (PTE.set_page_frame e pfn) = PTE.present e := by
  simp only [PTE.present, PTE.set_page_frame]; omega

theorem present_mod_U64 (e : Nat) : PTE.present (e % U64) = PTE.present e := by
  simp only [PTE.present, U64]; omega

theorem released_of_reads_only (cs : List Call) (h : reads_only cs = true) :
    released cs = true := by
  induction cs with
  | nil => rfl
  | cons c cs ih =>
    cases c with
    | read X buf count mode =>
      simp only [reads_only] at h
      simp only [released]
      exact ih h
    | remap e => simp [reads_only] at h
    | unlock => simp [reads_only] at h

/-- One returning `pte_mmap_read` keeps `pte_data` and leaves the live entry as it
was, or stores the target entry of the address asked for, whose frame is
valid. -/
theorem read_step_live (k : Kernel) (s s' : Machine) (X buf count mode : Nat)
    (hva : s.pte_data.rogue_va ≠ 0) (hp : s.pte_data.rogue_pte ≠ 0)
    (h : (Call.read X buf count mode).run k s = some s') :
    s'.pte_data = s.pte_data ∧
    (live_pte s' = live_pte s ∨
      (k.pfn_valid (__phys_to_pfn X) = true ∧ live_pte s' = read_target s X % U64)) := by
  have hpd := call_run_pte_data k s s' _ h
  refine ⟨hpd, ?_⟩
  simp only [Call.run] at h
  by_cases hv : k.pfn_valid (__phys_to_pfn X) = true
  · by_cases hm : s.mutex_locked = true
    · rw [pte_mmap_read_blocked k s X buf count mode hv hva hm] at h
      cases h
    · have hm' : s.mutex_locked = false := by simpa using hm
      obtain ⟨n, s1, h1, -, -, he, -⟩ := pte_mmap_read_returns k s X buf count mode hv hva hm' hp
      rw [h1] at h
      cases h
      right
      refine ⟨hv, ?_⟩
      rw [live_pte, he, hpd, load64_store64_same]
  · have hv' : k.pfn_valid (__phys_to_pfn X) = false := by simpa using hv
    rw [pte_mmap_read_invalid k s _ _ _ _ _ hv'] at h
    cases h
    exact Or.inl rfl

/-- After a returning sequence of reads the live entry is the one before the
sequence or the target entry of one of the addresses asked for. -/
theorem reads_live (k : Kernel) (s s2 : Machine) (cs : List Call)
    (hva : s.pte_data.rogue_va ≠ 0) (hp : s.pte_data.rogue_pte ≠ 0)
    (hc : reads_only cs = true) (h : run_calls k s cs = some s2) :
    live_pte s2 = live_pte s ∨
    ∃ X, X ∈ requested cs ∧ k.pfn_valid (__phys_to_pfn X) = true ∧
      live_pte s2 = PTE.set_page_frame s.pte_data.original_pte (__phys_to_pfn X) % U64 := by
  induction cs generalizing s with
  | nil =>
    simp only [run_calls] at h
    cases h
    exact Or.inl rfl
  | cons c cs ih =>
    cases c with
    | remap e => simp [reads_only] at hc
    | unlock => simp [reads_only] at hc
    | read X buf count mode =>
      simp only [reads_only] at hc
      simp only [run_calls] at h
      cases h1 : (Call.read X buf count mode).run k s with
      | none => rw [h1] at h; cases h
      | some s1 =>
        rw [h1] at h
        obtain ⟨hpd, hstep⟩ := read_step_live k s s1 X buf count mode hva hp h1
        rcases ih s1 (by rw [hpd]; exact hva) (by rw [hpd]; exact hp) hc h with e | ⟨Y, hY, hv, e⟩
        · rcases hstep with e1 | ⟨hv, e1⟩
          · exact Or.inl (e.trans e1)
          · exact Or.inr ⟨X, by simp [requested], hv, e.trans e1⟩
        · refine Or.inr ⟨Y, by simp [requested, hY], hv, ?_⟩
          rw [e, hpd]

theorem restore_blocked (k : Kernel) (s : Machine)
    (hr : s.pte_data.pte_method_is_ready_to_use = true)
    (hpf : PTE.page_frame s.pte_data.original_pte ≠ 0)
    (hva : s.pte_data.rogue_va ≠ 0) (hm : s.mutex_locked = true) :
    restore_pte_method k s .g_pte_data = .blocked := by
  unfold restore_pte_method
  simp only [hr, hpf, if_false, Bool.true_eq_false]
  rcases remap_cases s .g_pte_data s.pte_data.original_pte with c | c | c | c
  · rcases c.2 with h2 | h2
    · cases h2
    · exact absurd h2 hva
  · rw [c.1]
  · rw [hm] at c; simp at c
  · rw [hm] at c; simp at c

theorem virt_find_pte_cr3 (k : Kernel) (c : Nat) (s : Machine) (v : Nat) (b : Bool)
    (h : c &&& k.CR3_ADDR_MASK = k.native_read_cr3 &&& k.CR3_ADDR_MASK) :
    virt_find_pte { k with native_read_cr3 := c } s v b 0 = virt_find_pte k s v b 0 := by
  have e : r_cr3_pa { k with native_read_cr3 := c } = r_cr3_pa k := h
  have e4 : ∀ p, virt_find_pte_pml4 { k with native_read_cr3 := c } s v p
      = virt_find_pte_pml4 k s v p := fun _ => rfl
  unfold virt_find_pte
  simp only [if_true, e, e4]

/-- What a walk for a non-zero address from a non-zero root yields, in terms of
the entries the four table indices of the address select from that root. -/
theorem virt_find_pte_walk (k : Kernel) (s : Machine) (v f root : Nat) (hv : v ≠ 0)
    (hr : walk_root k f = some root) (hr0 : root ≠ 0) :
    (k.phys_to_virt root = 0 → virt_find_pte k s v true f = (.PTE_ERROR, some 0)) ∧
    (PML4E.present (load64 s.mem (pml4e_of k root v)) = 0 →
      virt_find_pte k s v true f = (.PTE_ERROR, some 0)) ∧
    (k.direct_map_nonnull →
      PML4E.present (load64 s.mem (pml4e_of k root v)) = 1 →
      PDPTE.present (load64 s.mem (pdpte_of k s root v)) = 1 →
      PDPTE.large_page (load64 s.mem (pdpte_of k s root v)) = 0 →
      PDE.present (load64 s.mem (pde_of k s root v)) = 1 →
      (PDE.large_page (load64 s.mem (pde_of k s root v)) = 1 →
        virt_find_pte k s v true f = (.PTE_SUCCESS, some (pde_of k s root v))) ∧
      (PDE.large_page (load64 s.mem (pde_of k s root v)) = 0 →
        PTE.present (load64 s.mem (pte_of k s root v)) = 1 →
        virt_find_pte k s v true f = (.PTE_SUCCESS, some (pte_of k s root v)))) ∧
    (∀ p, virt_find_pte k s v true f = (.PTE_SUCCESS, some p) →
      PML4E.present (load64 s.mem (pml4e_of k root v)) = 1 ∧
      PDPTE.present (load64 s.mem (pdpte_of k s root v)) = 1 ∧
      PDE.present (load64 s.mem (pde_of k s root v)) = 1 ∧
      (p = pde_of k s root v ∨ p = pte_of k s root v)) := by
  have h1 := virt_find_pte_of_root k s v f root hv hr hr0
  refine ⟨?_, ?_, ?_, ?_⟩
  · intro h0
    rw [h1, h0]
    unfold virt_find_pte_pml4
    simp
  · intro h0
    rw [h1]
    unfold virt_find_pte_pml4
    simp only [pml4e_of] at h0
    simp [h0]
  · intro hn h4 h3 h3l h2
    rw [h1]
    exact ⟨fun h2l => virt_find_pte_pml4_2m k s root v hn h4 h3 h3l h2 h2l,
      fun h2l hp => virt_find_pte_pml4_4k k s root v hn h4 h3 h3l h2 h2l hp⟩
  · intro p hp
    rw [h1] at hp
    rcases virt_find_pte_pml4_cases k s root v with e | ⟨h4, h3, -, h2, ⟨-, e⟩ | ⟨-, -, e⟩⟩
    · rw [e] at hp; cases hp
    · rw [e] at hp
      simp only [Prod.mk.injEq, Option.some.injEq, true_and] at hp
      exact ⟨h4, h3, h2, Or.inl hp.symm⟩
    · rw [e] at hp
      simp only [Prod.mk.injEq, Option.some.injEq, true_and] at hp
      exact ⟨h4, h3, h2, Or.inr hp.symm⟩

theorem enter_cases (k : Kernel) (s : Machine) (X : Nat) :
    (k.pfn_valid (__phys_to_pfn X) = false ∧ pte_mmap_read_enter k s X = .ret (some 0) s) ∨
    (k.pfn_valid (__phys_to_pfn X) = true ∧ s.pte_data.rogue_va = 0 ∧
      pte_mmap_read_enter k s X = .ret (some 0) { s with remap_calls := s.remap_calls + 1 }) ∨
    (k.pfn_valid (__phys_to_pfn X) = true ∧ s.pte_data.rogue_va ≠ 0 ∧ s.mutex_locked = true ∧
      pte_mmap_read_enter k s X = .blocked) ∨
    (k.pfn_valid (__phys_to_pfn X) = true ∧ s.pte_data.rogue_va ≠ 0 ∧ s.mutex_locked = false ∧
      s.pte_data.rogue_pte = 0 ∧ pte_mmap_read_enter k s X = .fault) ∨
    (k.pfn_valid (__phys_to_pfn X) = true ∧ s.pte_data.rogue_va ≠ 0 ∧ s.mutex_locked = false ∧
      s.pte_data.rogue_pte ≠ 0 ∧
      pte_mmap_read_enter k s X = .ret none (remapped s (read_target s X))) := by
  by_cases hv : k.pfn_valid (__phys_to_pfn X) = true
  · right
    rcases remap_cases s .g_pte_data (read_target s X) with h | h | h | h
    · rcases h.2 with h2 | h2
      · cases h2
      · left
        have h1 := h.1
        simp only [read_target] at h1
        exact ⟨hv, h2, by simp [pte_mmap_read_enter, hv, h1]⟩
    · right; left
      have h1 := h.1
      simp only [read_target] at h1
      exact ⟨hv, h.2.2.1, h.2.2.2, by simp [pte_mmap_read_enter, hv, h1]⟩
    · right; right; left
      have h1 := h.1
      simp only [read_target] at h1
      exact ⟨hv, h.2.2.1, h.2.2.2.1, h.2.2.2.2, by simp [pte_mmap_read_enter, hv, h1]⟩
    · right; right; right
      have h1 := h.1
      simp only [read_target] at h1
      exact ⟨hv, h.2.2.1, h.2.2.2.1, h.2.2.2.2, by simp [pte_mmap_read_enter, hv, h1, read_target]⟩
  · left
    have hv' : k.pfn_valid (__phys_to_pfn X) = false := by simpa using hv
    exact ⟨hv', by simp [pte_mmap_read_enter, hv']⟩

theorem enter_blocked (k : Kernel) (s : Machine) (X : Nat)
    (h : pte_mmap_read_enter k s X = .blocked) : s.mutex_locked = true := by
  rcases enter_cases k s X with c | c | c | c | c
  · rw [c.2] at h; cases h
  · rw [c.2.2] at h; cases h
  · exact c.2.2.1
  · rw [c.2.2.2.2] at h; cases h
  · rw [c.2.2.2.2] at h; cases h

theorem thread_step_start (k : Kernel) (s s' : Machine) (q : Request) (pc pc' : Pc)
    (h : thread_step k s q pc = some (s', pc')) (hne : pc ≠ .start) : pc' ≠ .start := by
  cases pc with
  | start => exact absurd rfl hne
  | locked =>
    simp only [thread_step, Option.some.injEq, Prod.mk.injEq] at h
    rw [← h.2]; intro e; cases e
  | copied n d =>
    simp only [thread_step, Option.some.injEq, Prod.mk.injEq] at h
    rw [← h.2]; intro e; cases e
  | done n d =>
    simp only [thread_step, Option.some.injEq, Prod.mk.injEq] at h
    rw [← h.2]; intro e; cases e

/-- C1: a buffer-mode `pte_mmap_read` of `n` bytes at physical address `X`, with
in-page offset `o = X % 4096`, returns exactly `min n (4096 - o)` when it
succeeds (valid frame, rogue state set up, mutex free, every destination byte
accepts the copy); whenever it returns, the count is that value or 0, and it is
0 when the call failed (null `pte_data`, invalid frame, rogue state not set up,
or a destination byte that rejects the copy).  This holds for every `n`, in
particular for `1 ≤ n ≤ 4096`. -/
theorem pte_mmap_read_buffer_count (k : Kernel) (s : Machine) (X buf n : Nat) :
    (k.pfn_valid (X / 4096) = true → s.pte_data.rogue_va ≠ 0 → s.pte_data.rogue_pte ≠ 0 →
      s.mutex_locked = false →
      (∀ i, i < min n (4096 - X % 4096) → k.user_writable (buf + i) = true) →
      ∃ s', pte_mmap_read k s .g_pte_data X buf n PHYS_BUFFER_READ
        = .ret (min n (4096 - X % 4096)) s') ∧
    (∀ p r s', pte_mmap_read k s p X buf n PHYS_BUFFER_READ = .ret r s' →
      (r = min n (4096 - X % 4096) ∨ r = 0) ∧
      ((p = .NULL ∨ k.pfn_valid (X / 4096) = false ∨ s.pte_data.rogue_va = 0 ∨
          ∃ i, i < min n (4096 - X % 4096) ∧ k.user_writable (buf + i) = false) → r = 0)) := by
  have hmin : min (PAGE_SIZE - offset_in_page X) n = min n (4096 - X % 4096) := by
    simp only [PAGE_SIZE, offset_in_page]; exact Nat.min_comm _ _
  have hlen : (buffer_load k s X n).1.length = min n (4096 - X % 4096) := by
    rw [buffer_load, rogue_read_length, hmin]
  constructor
  · intro hv hva hp hm hw
    have hv' : k.pfn_valid (__phys_to_pfn X) = true := hv
    have hc : (buffer_copy k s X buf n).1 = 0 := by
      rw [buffer_copy, copy_to_user_eq_zero_iff, hlen]; exact hw
    rw [pte_mmap_read_buffer_eq k s X buf n hv' hva hm hp, if_pos hc, hmin]
    exact ⟨_, rfl⟩
  · intro p r s' h
    cases p with
    | NULL =>
      rw [pte_mmap_read_null] at h
      cases h
      exact ⟨Or.inr rfl, fun _ => rfl⟩
    | g_pte_data =>
      by_cases hv : k.pfn_valid (__phys_to_pfn X) = true
      · have hv4 : k.pfn_valid (X / 4096) = true := hv
        by_cases hva : s.pte_data.rogue_va = 0
        · rw [pte_mmap_read_not_set_up k s _ _ _ _ hv hva] at h
          cases h
          exact ⟨Or.inr rfl, fun _ => rfl⟩
        · by_cases hm : s.mutex_locked = true
          · rw [pte_mmap_read_blocked k s _ _ _ _ hv hva hm] at h
            cases h
          · have hm' : s.mutex_locked = false := by simpa using hm
            by_cases hp : s.pte_data.rogue_pte = 0
            · rw [pte_mmap_read_fault k s _ _ _ _ hv hva hm' hp] at h
              cases h
            · rw [pte_mmap_read_buffer_eq k s X buf n hv hva hm' hp] at h
              by_cases hc : (buffer_copy k s X buf n).1 = 0
              · rw [if_pos hc, hmin] at h
                cases h
                refine ⟨Or.inl rfl, ?_⟩
                rintro (h1 | h1 | h1 | ⟨i, hi, hw⟩)
                · cases h1
                · rw [hv4] at h1; cases h1
                · exact absurd h1 hva
                · rw [buffer_copy, copy_to_user_eq_zero_iff, hlen] at hc
                  rw [hc i hi] at hw
                  cases hw
              · rw [if_neg hc] at h
                cases h
                exact ⟨Or.inr rfl, fun _ => rfl⟩
      · have hv' : k.pfn_valid (__phys_to_pfn X) = false := by simpa using hv
        rw [pte_mmap_read_invalid k s _ _ _ _ _ hv'] at h
        cases h
        exact ⟨Or.inr rfl, fun _ => rfl⟩

/-- Witness for C1: the two examples of the interface header.  Reading `0xf00`
bytes at `0x123aaa` returns `0x556`; reading `0x200` bytes at `0x7FFE0040`
returns `0x200`, and returns 0 when the destination rejects the copy. -/
theorem pte_mmap_read_buffer_count_witness :
    (∃ s', pte_mmap_read exKernel exMachine .g_pte_data 0x123aaa 0x5000 0xf00 PHYS_BUFFER_READ
      = .ret 0x556 s') ∧
    (∃ s', pte_mmap_read exKernel exMachine .g_pte_data 0x7FFE0040 0x5000 0x200 PHYS_BUFFER_READ
      = .ret 0x200 s') ∧
    (pte_mmap_read exKernel exMachine .g_pte_data 0x7FFE0040 0x6f00 0x200
      PHYS_BUFFER_READ).val? = some 0 := by
  refine ⟨?_, ?_, ?_⟩
  · exact (pte_mmap_read_buffer_count exKernel exMachine 0x123aaa 0x5000 0xf00).1
      (by decide) (by decide) (by decide) rfl
      (by intro i hi; simp only [exKernel, decide_eq_true_eq]; norm_num at hi; omega)
  · exact (pte_mmap_read_buffer_count exKernel exMachine 0x7FFE0040 0x5000 0x200).1
      (by decide) (by decide) (by decide) rfl
      (by intro i hi; simp only [exKernel, decide_eq_true_eq]; norm_num at hi; omega)
  · obtain ⟨n, s1, h, -⟩ := pte_mmap_read_returns exKernel exMachine 0x7FFE0040 0x6f00 0x200
      PHYS_BUFFER_READ (by decide) (by decide) rfl (by decide)
    have := ((pte_mmap_read_buffer_count exKernel exMachine 0x7FFE0040 0x6f00 0x200).2
      .g_pte_data n s1 h).2
      (Or.inr (Or.inr (Or.inr ⟨0x100, by decide, by decide⟩)))
    rw [h, this]
    rfl

/-- C3: for a fixed-width access of width `w` in {1, 2, 4, 8} at a physical
address whose in-page offset `o` satisfies `o + w > 4096`, `pte_mmap_read`
never returns a non-zero count, whatever the pointer argument, destination and
size; and with the mutex free and `rogue_pte` resolved whenever `rogue_va` is,
it does return, with count 0. -/
theorem pte_mmap_read_crossing (k : Kernel) (s : Machine) (p : PPTE_METHOD_DATA)
    (X buf count w : Nat) (hw : w = 1 ∨ w = 2 ∨ w = 4 ∨ w = 8)
    (ho : X % 4096 + w > 4096) :
    (∀ r s', pte_mmap_read k s p X buf count w = .ret r s' → r = 0) ∧
    (s.mutex_locked = false → (s.pte_data.rogue_va ≠ 0 → s.pte_data.rogue_pte ≠ 0) →
      ∃ s', pte_mmap_read k s p X buf count w = .ret 0 s') := by
  have hmis : ¬ (offset_in_page X % w = 0) := by
    simp only [offset_in_page, PAGE_SIZE]
    rcases hw with rfl | rfl | rfl | rfl <;> omega
  cases p with
  | NULL =>
    rw [pte_mmap_read_null]
    exact ⟨fun r s' h => (by cases h; rfl), fun _ _ => ⟨_, rfl⟩⟩
  | g_pte_data =>
    by_cases hv : k.pfn_valid (__phys_to_pfn X) = true
    · by_cases hva : s.pte_data.rogue_va = 0
      · rw [pte_mmap_read_not_set_up k s _ _ _ _ hv hva]
        exact ⟨fun r s' h => (by cases h; rfl), fun _ _ => ⟨_, rfl⟩⟩
      · by_cases hm : s.mutex_locked = true
        · rw [pte_mmap_read_blocked k s _ _ _ _ hv hva hm]
          exact ⟨fun r s' h => (by cases h), fun h _ => (by rw [hm] at h; cases h)⟩
        · have hm' : s.mutex_locked = false := by simpa using hm
          by_cases hp : s.pte_data.rogue_pte = 0
          · rw [pte_mmap_read_fault k s _ _ _ _ hv hva hm' hp]
            exact ⟨fun r s' h => (by cases h), fun _ h => absurd hp (h hva)⟩
          · rw [pte_mmap_read_fixed_eq k s X buf count w hw hv hva hm' hp, if_neg hmis]
            exact ⟨fun r s' h => (by cases h; rfl), fun _ _ => ⟨_, rfl⟩⟩
    · have hv' : k.pfn_valid (__phys_to_pfn X) = false := by simpa using hv
      rw [pte_mmap_read_invalid k s _ _ _ _ _ hv']
      exact ⟨fun r s' h => (by cases h; rfl), fun _ _ => ⟨_, rfl⟩⟩

/-- Witness for C3: a 2-byte read at `0x123fff` (offset `0xfff`) returns 0. -/
theorem pte_mmap_read_crossing_witness :
    0x123fff % 4096 + 2 > 4096 ∧
    ∃ s', pte_mmap_read exKernel exMachine .g_pte_data 0x123fff 0 2 2 = .ret 0 s' :=
  ⟨by decide,
    (pte_mmap_read_crossing exKernel exMachine .g_pte_data 0x123fff 0 2 2
      (Or.inr (Or.inl rfl)) (by decide)).2 rfl (fun _ => by decide)⟩

/-- C4: a fixed-width access of width `w` in {1, 2, 4, 8} (the caller passes
`count = w` and `access_mode = w`) with a valid target frame, the rogue state
set up and the mutex free returns `w` when the in-page offset is a multiple of
`w` and 0 when it is not; and in every state and for every pointer argument a
call that returns gives 0 or `w`, nothing else. -/
theorem pte_mmap_read_fixed_all_or_nothing (k : Kernel) (s : Machine)
    (X buf w : Nat) (hw : w = 1 ∨ w = 2 ∨ w = 4 ∨ w = 8) :
    (k.pfn_valid (X / 4096) = true → s.pte_data.rogue_va ≠ 0 → s.pte_data.rogue_pte ≠ 0 →
      s.mutex_locked = false →
      ∃ s', pte_mmap_read k s .g_pte_data X buf w w
        = .ret (if X % 4096 % w = 0 then w else 0) s') ∧
    (∀ p r s', pte_mmap_read k s p X buf w w = .ret r s' → r = 0 ∨ r = w) := by
  have hfull : offset_in_page X % w = 0 → min (PAGE_SIZE - offset_in_page X) w = w := by
    simp only [offset_in_page, PAGE_SIZE]
    rcases hw with rfl | rfl | rfl | rfl <;> omega
  have key : ∀ (hv : k.pfn_valid (__phys_to_pfn X) = true) (hva : s.pte_data.rogue_va ≠ 0)
      (hp : s.pte_data.rogue_pte ≠ 0) (hm : s.mutex_locked = false),
      ∃ s', pte_mmap_read k s .g_pte_data X buf w w
        = .ret (if X % 4096 % w = 0 then w else 0) s' := by
    intro hv hva hp hm
    rw [pte_mmap_read_fixed_eq k s X buf w w hw hv hva hm hp]
    by_cases ha : offset_in_page X % w = 0
    · have ha' : X % 4096 % w = 0 := ha
      rw [if_pos ha, if_pos ha', hfull ha]
      exact ⟨_, rfl⟩
    · have ha' : ¬ (X % 4096 % w = 0) := ha
      rw [if_neg ha, if_neg ha']
      exact ⟨_, rfl⟩
  refine ⟨fun hv hva hp hm => key hv hva hp hm, ?_⟩
  intro p r s' h
  cases p with
  | NULL =>
    rw [pte_mmap_read_null] at h
    cases h
    exact Or.inl rfl
  | g_pte_data =>
    by_cases hv : k.pfn_valid (__phys_to_pfn X) = true
    · by_cases hva : s.pte_data.rogue_va = 0
      · rw [pte_mmap_read_not_set_up k s _ _ _ _ hv hva] at h
        cases h
        exact Or.inl rfl
      · by_cases hm : s.mutex_locked = true
        · rw [pte_mmap_read_blocked k s _ _ _ _ hv hva hm] at h
          cases h
        · have hm' : s.mutex_locked = false := by simpa using hm
          by_cases hp : s.pte_data.rogue_pte = 0
          · rw [pte_mmap_read_fault k s _ _ _ _ hv hva hm' hp] at h
            cases h
          · obtain ⟨s1, h1⟩ := key hv hva hp hm'
            rw [h1] at h
            cases h
            split_ifs
            · exact Or.inr rfl
            · exact Or.inl rfl
    · have hv' : k.pfn_valid (__phys_to_pfn X) = false := by simpa using hv
      rw [pte_mmap_read_invalid k s _ _ _ _ _ hv'] at h
      cases h
      exact Or.inl rfl

/-- Witness for C4: the qword read of the demo program at `0x7FFE0040` returns 8,
a qword read at `0x7FFE0044` returns 0. -/
theorem pte_mmap_read_fixed_all_or_nothing_witness :
    (∃ s', pte_mmap_read exKernel exMachine .g_pte_data 0x7FFE0040 0 8 8 = .ret 8 s') ∧
    (∃ s', pte_mmap_read exKernel exMachine .g_pte_data 0x7FFE0044 0 8 8 = .ret 0 s') :=
  ⟨(pte_mmap_read_fixed_all_or_nothing exKernel exMachine 0x7FFE0040 0 8
      (Or.inr (Or.inr (Or.inr rfl)))).1 (by decide) (by decide) (by decide) rfl,
   (pte_mmap_read_fixed_all_or_nothing exKernel exMachine 0x7FFE0044 0 8
      (Or.inr (Or.inr (Or.inr rfl)))).1 (by decide) (by decide) (by decide) rfl⟩

/-- C5, the code at the documented input: a 2-byte read request at an address
with in-page offset `0xffe` does not fail.  For every such address with a valid
frame, the rogue state set up and the mutex free, `pte_mmap_read` reports the
full 2 bytes; and for the header's example `0x123ffe` on the example machine
`do_ioctl_read` returns 0 rather than `-EIO`, with `out_value` the
little-endian value `0x100f` of the two bytes `0x0f`, `0x10` stored at
`0x123ffe` and `0x123fff`. -/
theorem do_ioctl_read_word_at_ffe :
    (∀ (k : Kernel) (s : Machine) (X buf : Nat), X % 4096 = 0xffe →
      k.pfn_valid (X / 4096) = true → s.pte_data.rogue_va ≠ 0 → s.pte_data.rogue_pte ≠ 0 →
      s.mutex_locked = false →
      ∃ s', pte_mmap_read k s .g_pte_data X buf 2 PHYS_WORD_READ = .ret 2 s') ∧
    exMachine.phys exKernel 0x123ffe = 0x0f ∧ exMachine.phys exKernel 0x123fff = 0x10 ∧
    (pte_mmap_read exKernel exMachine .g_pte_data 0x123ffe 0 2 PHYS_WORD_READ).val? = some 2 ∧
    (do_ioctl_read exKernel exMachine (exRequest 0x123ffe PHYS_WORD_READ) true true).val?
      = some (0, { exRequest 0x123ffe PHYS_WORD_READ with out_value := 0x100f }) := by
  refine ⟨?_, by decide, by decide, by decide, by decide⟩
  intro k s X buf ho hv hva hp hm
  have hoff : offset_in_page X = 0xffe := ho
  rw [show PHYS_WORD_READ = 2 from rfl,
    pte_mmap_read_fixed_eq k s X buf 2 2 (Or.inr (Or.inl rfl)) hv hva hm hp, hoff]
  exact ⟨_, rfl⟩

/-- C6: for every input to `pte_mmap_read` (any pointer argument, address,
destination, size, access mode and rogue state), if the rogue-page mutex is
free before the call then the call does not sleep on the mutex, it returns
unless it stores through a null `rogue_pte` (which happens exactly when the
frame is valid, `rogue_va.pointer` is set and `rogue_pte` is null), and
whenever it returns the mutex is free again. -/
theorem pte_mmap_read_releases_mutex (k : Kernel) (s : Machine) (p : PPTE_METHOD_DATA)
    (phys_addr buf count access_mode : Nat) (hm : s.mutex_locked = false) :
    pte_mmap_read k s p phys_addr buf count access_mode ≠ .blocked ∧
    (pte_mmap_read k s p phys_addr buf count access_mode = .fault ↔
      (p = .g_pte_data ∧ k.pfn_valid (phys_addr / 4096) = true ∧
        s.pte_data.rogue_va ≠ 0 ∧ s.pte_data.rogue_pte = 0)) ∧
    (∀ n s', pte_mmap_read k s p phys_addr buf count access_mode = .ret n s' →
      s'.mutex_locked = false) := by
  cases p with
  | NULL =>
    rw [pte_mmap_read_null]
    refine ⟨by simp, by simp, ?_⟩
    intro n s' h
    cases h
    exact hm
  | g_pte_data =>
    by_cases hv : k.pfn_valid (__phys_to_pfn phys_addr) = true
    · have hv4 : k.pfn_valid (phys_addr / 4096) = true := hv
      by_cases hva : s.pte_data.rogue_va = 0
      · rw [pte_mmap_read_not_set_up k s _ _ _ _ hv hva]
        refine ⟨by simp, by simp [hva], ?_⟩
        intro n s' h
        cases h
        exact hm
      · by_cases hp : s.pte_data.rogue_pte = 0
        · rw [pte_mmap_read_fault k s _ _ _ _ hv hva hm hp]
          exact ⟨by simp, by simp [hv4, hva, hp], by simp⟩
        · obtain ⟨n, s1, h, hmu, -⟩ := pte_mmap_read_returns k s phys_addr buf count
            access_mode hv hva hm hp
          rw [h]
          refine ⟨by simp, by simp [hp], ?_⟩
          intro n' s' h'
          cases h'
          exact hmu
    · have hv' : k.pfn_valid (__phys_to_pfn phys_addr) = false := by simpa using hv
      have hv4 : k.pfn_valid (phys_addr / 4096) = false := hv'
      rw [pte_mmap_read_invalid k s _ _ _ _ _ hv']
      refine ⟨by simp, by simp [hv4], ?_⟩
      intro n s' h
      cases h
      exact hm

/-- Witness for C6: a qword read that is rejected for misalignment still
returns with the mutex free. -/
theorem pte_mmap_read_releases_mutex_witness :
    exMachine.mutex_locked = false ∧
    (pte_mmap_read exKernel exMachine .g_pte_data 0x123ffc 0 8 PHYS_QWORD_READ).val? = some 0 ∧
    (∀ n s', pte_mmap_read exKernel exMachine .g_pte_data 0x123ffc 0 8 PHYS_QWORD_READ
      = .ret n s' → s'.mutex_locked = false) :=
  ⟨rfl, by decide,
    (pte_mmap_read_releases_mutex exKernel exMachine .g_pte_data 0x123ffc 0 8 PHYS_QWORD_READ
      rfl).2.2⟩

/-- C7: when the frame number of the requested physical address is not a valid
physical frame, `pte_mmap_read` returns 0 in the very state it was called in,
for every pointer argument, destination, size and access mode: the live rogue
entry, the rogue state and the mutex are untouched, and the ghost counter of
entries into `pte_remap_rogue_page_locked` has not moved, so the remapper was
not called. -/
theorem pte_mmap_read_invalid_frame (k : Kernel) (s : Machine) (p : PPTE_METHOD_DATA)
    (phys_addr buf count access_mode : Nat)
    (h : k.pfn_valid (phys_addr / 4096) = false) :
    pte_mmap_read k s p phys_addr buf count access_mode = .ret 0 s :=
  pte_mmap_read_invalid k s p phys_addr buf count access_mode h

/-- Witness for C7: frame `0x100000` is not valid for `exKernel`; a qword read of
`0x100000008` returns 0 and leaves `exMachine` as it was. -/
theorem pte_mmap_read_invalid_frame_witness :
    exKernel.pfn_valid (0x100000008 / 4096) = false ∧
    pte_mmap_read exKernel exMachine .g_pte_data 0x100000008 0 8 PHYS_QWORD_READ
      = .ret 0 exMachine :=
  ⟨by decide, pte_mmap_read_invalid_frame exKernel exMachine .g_pte_data 0x100000008 0 8
    PHYS_QWORD_READ (by decide)⟩

/-- C8: whenever `pte_remap_rogue_page_locked` returns `PTE_SUCCESS` for a 64-bit
entry `new_pte`, the mutex is held on return, the live rogue entry equals
`new_pte`, so its frame number is the frame number of `new_pte`; the rogue
state is unchanged and no translation of the rogue page is cached any more. -/
theorem pte_remap_success_post (s s' : Machine) (p : PPTE_METHOD_DATA) (new_pte : Nat)
    (hnew : new_pte < 2 ^ 64)
    (h : pte_remap_rogue_page_locked s p new_pte = .ret .PTE_SUCCESS s') :
    s'.mutex_locked = true ∧ live_pte s' = new_pte ∧
    PTE.page_frame (live_pte s') = PTE.page_frame new_pte ∧
    s'.pte_data = s.pte_data ∧ s'.tlb = none := by
  rcases remap_cases s p new_pte with c | c | c | c
  · rw [c.1] at h; cases h
  · rw [c.1] at h; cases h
  · rw [c.1] at h; cases h
  · rw [c.1] at h
    cases h
    have hl : live_pte (remapped s new_pte) = new_pte := by
      rw [live_pte_remapped]; exact Nat.mod_eq_of_lt hnew
    exact ⟨rfl, hl, by rw [hl], rfl, rfl⟩

/-- Witness for C8: remapping `exMachine` to frame `0x123` succeeds, holds the
mutex and leaves exactly the entry passed in. -/
theorem pte_remap_success_post_witness :
    pte_remap_rogue_page_locked exMachine .g_pte_data 0x8000000000123063
      = .ret .PTE_SUCCESS (remapped exMachine 0x8000000000123063) ∧
    (remapped exMachine 0x8000000000123063).mutex_locked = true ∧
    live_pte (remapped exMachine 0x8000000000123063) = 0x8000000000123063 ∧
    PTE.page_frame (live_pte (remapped exMachine 0x8000000000123063)) = 0x123 :=
  have h : pte_remap_rogue_page_locked exMachine .g_pte_data 0x8000000000123063
      = .ret .PTE_SUCCESS (remapped exMachine 0x8000000000123063) := rfl
  have t := pte_remap_success_post exMachine _ .g_pte_data 0x8000000000123063 (by decide) h
  ⟨h, t.1, t.2.1, by rw [t.2.2.1]; decide⟩

/-- Counterexample to C9 as stated: in `exNotReady` the readiness flag is not
set, yet `pte_remap_rogue_page_locked` returns `PTE_SUCCESS`, has taken the
mutex and has written the live entry. -/
theorem pte_remap_ignores_ready_flag :
    exNotReady.pte_data.pte_method_is_ready_to_use = false ∧
    exNotReady.mutex_locked = false ∧
    (pte_remap_rogue_page_locked exNotReady .g_pte_data 0x8000000000123063).val?
      = some .PTE_SUCCESS ∧
    (pte_remap_rogue_page_locked exNotReady .g_pte_data 0x8000000000123063).state?.map
      (fun s => (s.mutex_locked, live_pte s)) = some (true, 0x8000000000123063) ∧
    live_pte exNotReady = 0x8000000000042063 := by
  decide

/-- C9, amended: `pte_remap_rogue_page_locked` returns `PTE_ERROR` without taking
the mutex and without writing any entry (the state differs only in the ghost
call counter) whenever `pte_data` is `NULL` or the rogue virtual address
`rogue_va.pointer` is null, as it is in a rogue state that setup never touched;
and these are the only cases in which it returns `PTE_ERROR`.  The readiness
flag is not consulted. -/
theorem pte_remap_error_iff (s : Machine) (p : PPTE_METHOD_DATA) (new_pte : Nat) :
    ((p = .NULL ∨ s.pte_data.rogue_va = 0) →
      pte_remap_rogue_page_locked s p new_pte
        = .ret .PTE_ERROR { s with remap_calls := s.remap_calls + 1 }) ∧
    ((pte_remap_rogue_page_locked s p new_pte).val? = some .PTE_ERROR →
      p = .NULL ∨ s.pte_data.rogue_va = 0) := by
  rcases remap_cases s p new_pte with c | c | c | c
  · exact ⟨fun _ => c.1, fun _ => c.2⟩
  · refine ⟨fun h => ?_, fun h => ?_⟩
    · rcases h with h | h
      · rw [c.2.1] at h; cases h
      · exact absurd h c.2.2.1
    · rw [c.1] at h; cases h
  · refine ⟨fun h => ?_, fun h => ?_⟩
    · rcases h with h | h
      · rw [c.2.1] at h; cases h
      · exact absurd h c.2.2.1
    · rw [c.1] at h; cases h
  · refine ⟨fun h => ?_, fun h => ?_⟩
    · rcases h with h | h
      · rw [c.2.1] at h; cases h
      · exact absurd h c.2.2.1
    · rw [c.1] at h; cases h

/-- Witness for C9, amended: in the all-zero rogue state `exBoot` of a module whose
setup never ran, the remapper returns `PTE_ERROR`, the mutex stays free and the entry
memory is the same. -/
theorem pte_remap_error_iff_witness :
    pte_remap_rogue_page_locked exBoot .g_pte_data 0x8000000000123063
      = .ret .PTE_ERROR { exBoot with remap_calls := exBoot.remap_calls + 1 } ∧
    ({ exBoot with remap_calls := exBoot.remap_calls + 1 } : Machine).mutex_locked = false :=
  ⟨(pte_remap_error_iff exBoot .g_pte_data 0x8000000000123063).1 (Or.inr rfl), rfl⟩

/-- C10: after a successful `setup_pte_method`, take any finite sequence of
physical reads (`pte_mmap_read`), `pte_remap_rogue_page_locked` calls and
releases of the mutex by the caller that holds it.  If all of them return and
the mutex is free at the end (each caller of the remapper has given the rogue
page back, as the contract of the remapper asks), the following
`restore_pte_method` returns and leaves the live rogue entry equal to the
64-bit value saved in `original_pte` at setup, which is the value the entry
had at setup, with the mutex free.  And the premise is met by every sequence
of reads and of remapper calls directly followed by the release, when the
mutex was free at setup: all of these calls return and leave the mutex free. -/
theorem restore_pte_method_restores (k : Kernel) (s0 s1 : Machine) (calls : List Call)
    (hsetup : setup_pte_method k s0 .g_pte_data = .ret 0 s1) :
    (∀ s2, run_calls k s1 calls = some s2 → s2.mutex_locked = false →
      ∃ s3, restore_pte_method k s2 .g_pte_data = .ret () s3 ∧
        live_pte s3 = s1.pte_data.original_pte ∧
        s1.pte_data.original_pte = load64 s0.mem s1.pte_data.rogue_pte ∧
        s3.mutex_locked = false) ∧
    (s0.mutex_locked = false → released calls = true →
      ∃ s2, run_calls k s1 calls = some s2 ∧ s2.mutex_locked = false) := by
  obtain ⟨hr, -, hva, -, hp, ho, -, hpf, he, hm01⟩ := setup_success k s0 s1 _ hsetup
  constructor
  · intro s2 hrun hfree
    have hpd := run_calls_pte_data k s1 s2 calls hrun
    obtain ⟨s3, h3, hl, hm3, -⟩ := restore_ready k s2 (by rw [hpd]; exact hr)
      (by rw [hpd]; exact hpf) (by rw [hpd]; exact hva) (by rw [hpd]; exact hp) hfree
    have hmod : s1.pte_data.original_pte % U64 = s1.pte_data.original_pte := by
      rw [ho, live_pte, load64_mod]
    refine ⟨s3, h3, ?_, ?_, hm3⟩
    · rw [hl, hpd, hmod]
    · rw [ho, live_pte, he]
  · intro hm0 hrel
    exact run_calls_released k s1 calls hva hp (by rw [hm01]; exact hm0) hrel

/-- Witness for C10: on the example machine setup succeeds; a remap to frame
`0x123` with the release of the mutex and a 4-byte buffer read of `0x7FFE0040`
follow and return; `restore_pte_method` then returns with the live entry back
at the saved value `0x8000000000042063`. -/
theorem restore_pte_method_restores_witness :
    setup_pte_method exKernel exBoot .g_pte_data = .ret 0 exSetUp ∧
    ∃ s2 s3,
      run_calls exKernel exSetUp
        [.remap 0x8000000000123063, .unlock, .read 0x7FFE0040 0x5000 4 PHYS_BUFFER_READ]
        = some s2 ∧
      restore_pte_method exKernel s2 .g_pte_data = .ret () s3 ∧
      live_pte s3 = 0x8000000000042063 := by
  have hsetup : setup_pte_method exKernel exBoot .g_pte_data = .ret 0 exSetUp := by
    rfl
  have t := restore_pte_method_restores exKernel exBoot exSetUp
    [.remap 0x8000000000123063, .unlock, .read 0x7FFE0040 0x5000 4 PHYS_BUFFER_READ] hsetup
  obtain ⟨s2, h2, hm2⟩ := t.2 rfl rfl
  obtain ⟨s3, h3, hl, -⟩ := t.1 s2 h2 hm2
  exact ⟨hsetup, s2, s3, h2, h3, hl⟩

/-- C11: `setup_pte_method` returns 0 with `pte_method_is_ready_to_use` set when
the rogue buffer is page-aligned, the walker resolves the buffer's entry and the
frame number of that entry is not zero, and then `rogue_pte` is the resolved
pointer and `original_pte` the value of the live entry; in every other case it
returns -1 with the readiness flag false.  Since the two results differ, 0 is
returned exactly under the three conditions. -/
theorem setup_pte_method_iff (k : Kernel) (s : Machine) :
    (setup_conditions k s →
      ∃ s', setup_pte_method k s .g_pte_data = .ret 0 s' ∧
        s'.pte_data.pte_method_is_ready_to_use = true ∧
        s'.pte_data.original_pte = live_pte s' ∧
        ∀ p, virt_find_pte k s k.g_rogue_page true 0 = (.PTE_SUCCESS, some p) →
          s'.pte_data.rogue_pte = p ∧ s'.pte_data.original_pte = load64 s.mem p) ∧
    (¬ setup_conditions k s →
      ∃ s', setup_pte_method k s .g_pte_data = .ret (-1) s' ∧
        s'.pte_data.pte_method_is_ready_to_use = false) := by
  obtain ⟨s', h, hr, he, hp⟩ := setup_cases k s
  have hal : PAGE_ALIGNED k.g_rogue_page = true ↔ k.g_rogue_page % 4096 = 0 := by
    simp [PAGE_ALIGNED, IS_ALIGNED, PAGE_SIZE]
  constructor
  · rintro ⟨c1, p, c2, c3⟩
    have hc : PAGE_ALIGNED k.g_rogue_page = true ∧
        (virt_find_pte k s k.g_rogue_page true 0).1 = .PTE_SUCCESS ∧
        PTE.page_frame (load64 s.mem
          ((virt_find_pte k s k.g_rogue_page true 0).2.getD 0)) ≠ 0 := by
      rw [c2]; exact ⟨hal.2 c1, rfl, c3⟩
    rw [if_pos hc] at h
    rw [decide_eq_true hc] at hr
    obtain ⟨hp1, hp2⟩ := hp hc.2.1 hc.1
    rw [c2] at hp1 hp2
    refine ⟨s', h, hr, ?_, ?_⟩
    · rw [hp2, live_pte, he, hp1]
    · intro q hq
      rw [c2] at hq
      cases hq
      exact ⟨hp1, hp2⟩
  · intro hn
    have hc : ¬ (PAGE_ALIGNED k.g_rogue_page = true ∧
        (virt_find_pte k s k.g_rogue_page true 0).1 = .PTE_SUCCESS ∧
        PTE.page_frame (load64 s.mem
          ((virt_find_pte k s k.g_rogue_page true 0).2.getD 0)) ≠ 0) := by
      rintro ⟨c1, c2, c3⟩
      rcases virt_find_pte_status k s k.g_rogue_page 0 true with e | ⟨p, e⟩
      · rw [e] at c2; cases c2
      · rw [e] at c3
        exact hn ⟨hal.1 c1, p, e, c3⟩
    rw [if_neg hc] at h
    rw [decide_eq_false hc] at hr
    exact ⟨s', h, hr⟩

/-- Witness for C11: on the example machine the three conditions hold and setup
returns 0 in a state whose flag is set and whose `original_pte` is
the value `0x8000000000042063` of the live entry; with empty page tables the
walker fails and setup returns -1. -/
theorem setup_pte_method_iff_witness :
    setup_conditions exKernel exBoot ∧
    (∃ s', setup_pte_method exKernel exBoot .g_pte_data = .ret 0 s' ∧
      s'.pte_data.pte_method_is_ready_to_use = true ∧
      s'.pte_data.original_pte = 0x8000000000042063) ∧
    (∃ s', setup_pte_method exKernel { exBoot with mem := fun _ => 0 } .g_pte_data
        = .ret (-1) s' ∧
      s'.pte_data.pte_method_is_ready_to_use = false) := by
  have hc : setup_conditions exKernel exBoot :=
    ⟨by decide, 0xffff888000004010, by decide, by decide⟩
  refine ⟨hc, ?_, ?_⟩
  · obtain ⟨s', h, hr, -, hp⟩ := (setup_pte_method_iff exKernel exBoot).1 hc
    exact ⟨s', h, hr, (hp 0xffff888000004010 (by decide)).2.trans (by decide)⟩
  · refine (setup_pte_method_iff exKernel { exBoot with mem := fun _ => 0 }).2 ?_
    rintro ⟨-, p, h, -⟩
    revert h
    have : virt_find_pte exKernel { exBoot with mem := fun _ => 0 }
        exKernel.g_rogue_page true 0 = (.PTE_ERROR, some 0) := by decide
    rw [this]
    intro h
    cases h

/-- Counterexample to C12 as stated.  In `exLow` virtual page 0 is a 4 KiB page
on frame `0x42` (all four entries present, none marked large) and the walker
resolves the level-1 entry for `0x10`, yet the translation of `0x10` fails with
`-EIO` and physical address 0 instead of `0x42010`: the address is stripped
of its offset before the walk and the walker rejects the resulting zero.  In
`exPat` the level-1 entry of `0xffffffffc0002010` is present on frame `0x42`
with bit 7 set, and the translation returns `0x44010` instead of `0x42010`. -/
theorem do_ioctl_vtop_4k_counterexample :
    (PML4E.present (load64 exLow.mem (pml4e_of exKernel 0x1000 0x10)) = 1 ∧
      PDPTE.present (load64 exLow.mem (pdpte_of exKernel exLow 0x1000 0x10)) = 1 ∧
      PDPTE.large_page (load64 exLow.mem (pdpte_of exKernel exLow 0x1000 0x10)) = 0 ∧
      PDE.present (load64 exLow.mem (pde_of exKernel exLow 0x1000 0x10)) = 1 ∧
      PDE.large_page (load64 exLow.mem (pde_of exKernel exLow 0x1000 0x10)) = 0 ∧
      PTE.present (load64 exLow.mem (pte_of exKernel exLow 0x1000 0x10)) = 1 ∧
      PTE.page_frame (load64 exLow.mem (pte_of exKernel exLow 0x1000 0x10)) = 0x42 ∧
      virt_find_pte exKernel exLow 0x10 true 0
        = (.PTE_SUCCESS, some (pte_of exKernel exLow 0x1000 0x10)) ∧
      do_ioctl_vtop exKernel exLow (exVtop 0x10) true true
        = (- EIO, { exVtop 0x10 with phys_address := 0, ppte := 0 })) ∧
    (PTE.present (load64 exPat.mem (pte_of exKernel exPat 0x1000 0xffffffffc0002010)) = 1 ∧
      PDE.large_page (load64 exPat.mem (pde_of exKernel exPat 0x1000 0xffffffffc0002010)) = 0 ∧
      PTE.page_frame (load64 exPat.mem (pte_of exKernel exPat 0x1000 0xffffffffc0002010))
        = 0x42 ∧
      (do_ioctl_vtop exKernel exPat (exVtop 0xffffffffc0002010) true true).2.phys_address
        = 0x44010 ∧
      0x42 * 4096 + 0xffffffffc0002010 % 4096 = 0x42010) := by
  decide

/-- C12, amended: for every virtual address `v` that is 4 KiB-mapped from the
root the walk uses (entries at all four levels present, level-3 and level-2
entries not marked large, the direct map giving no null table pointer), the
walker called on a non-zero `v` returns the level-1 entry selected by the four
table indices of `v`; and when `v` is at least 4096 and bit 7 of that entry is
clear, the translate operation returns 0 with physical address
`frame number of the entry * 4096 + v % 4096` and the pointer to the entry. -/
theorem do_ioctl_vtop_4k (k : Kernel) (s : Machine) (r : LINPMEM_VTOP_INFO) (root : Nat)
    (hn : k.direct_map_nonnull)
    (hr : walk_root k r.associated_cr3 = some root) (hr0 : root ≠ 0)
    (hv : r.virt_address ≠ 0)
    (h4 : PML4E.present (load64 s.mem (pml4e_of k root r.virt_address)) = 1)
    (h3 : PDPTE.present (load64 s.mem (pdpte_of k s root r.virt_address)) = 1)
    (h3l : PDPTE.large_page (load64 s.mem (pdpte_of k s root r.virt_address)) = 0)
    (h2 : PDE.present (load64 s.mem (pde_of k s root r.virt_address)) = 1)
    (h2l : PDE.large_page (load64 s.mem (pde_of k s root r.virt_address)) = 0)
    (h1 : PTE.present (load64 s.mem (pte_of k s root r.virt_address)) = 1) :
    virt_find_pte k s r.virt_address true r.associated_cr3
      = (.PTE_SUCCESS, some (pte_of k s root r.virt_address)) ∧
    (4096 ≤ r.virt_address →
      PTE.large_page (load64 s.mem (pte_of k s root r.virt_address)) = 0 →
      do_ioctl_vtop k s r true true =
        (0, { r with
              phys_address :=
                PTE.page_frame (load64 s.mem (pte_of k s root r.virt_address)) * 4096
                  + r.virt_address % 4096
              ppte := pte_of k s root r.virt_address })) := by
  constructor
  · rw [virt_find_pte_of_root k s _ _ root hv hr hr0]
    exact virt_find_pte_pml4_4k k s root _ hn h4 h3 h3l h2 h2l h1
  · intro hv4 hpat
    have hw : virt_find_pte k s (r.virt_address - VIRT_ADDR.offset r.virt_address) true
        r.associated_cr3 = (.PTE_SUCCESS, some (pte_of k s root r.virt_address)) := by
      rw [virt_find_pte_of_root k s _ _ root (strip_ne_zero _ hv4) hr hr0,
        ← pte_of_strip k s root r.virt_address]
      apply virt_find_pte_pml4_4k k s root _ hn
      · rw [pml4e_of_strip]; exact h4
      · rw [pdpte_of_strip]; exact h3
      · rw [pdpte_of_strip]; exact h3l
      · rw [pde_of_strip]; exact h2
      · rw [pde_of_strip]; exact h2l
      · rw [pte_of_strip]; exact h1
    rw [do_ioctl_vtop_of_success k s r _ hv hw h1, if_pos hpat]

/-- Witness for C12, amended: in `exLow` the address `0x5010` lies in a 4 KiB page
on frame `0x47`; the walker returns the entry at `0xffff888000004028` and the
translation is `0x47010`. -/
theorem do_ioctl_vtop_4k_witness :
    virt_find_pte exKernel exLow 0x5010 true 0 = (.PTE_SUCCESS, some 0xffff888000004028) ∧
    do_ioctl_vtop exKernel exLow (exVtop 0x5010) true true
      = (0, { exVtop 0x5010 with phys_address := 0x47010, ppte := 0xffff888000004028 }) := by
  have t := do_ioctl_vtop_4k exKernel exLow (exVtop 0x5010) 0x1000 exKernel_direct_map_nonnull
    (by decide) (by decide) (by decide) (by decide) (by decide) (by decide) (by decide)
    (by decide) (by decide)
  refine ⟨t.1.trans (by decide), (t.2 (by decide) (by decide)).trans (by decide)⟩

/-- Counterexample to C13 as stated, in two parts.  In `exWrap` the level-2 entry
of `0x234567` is present and large with frame field `0xffffffffff`, the walker
returns it, and the translation is `0x33567` instead of
`(0xffffffffff + 0x34) * 4096 + 0x567`: the sum of frame and index is formed in
40 bits.  In `exLow2M` the first 2 MiB of the address space are a large page on
frame `0x800` (level-4 and level-3 entries present, level 3 not large, level-2
entry present and marked large) and the walker returns that level-2 entry for
`0x10`, yet the translation of `0x10` fails with `-EIO` and physical address 0
instead of `0x800010`: the address is stripped of its offset before the walk
and the walker rejects the resulting zero. -/
theorem do_ioctl_vtop_2m_counterexample :
    (PDE.present (load64 exWrap.mem (pde_of exKernel exWrap 0x1000 0x234567)) = 1 ∧
      PDE.large_page (load64 exWrap.mem (pde_of exKernel exWrap 0x1000 0x234567)) = 1 ∧
      PTE.page_frame (load64 exWrap.mem (pde_of exKernel exWrap 0x1000 0x234567))
        = 0xffffffffff ∧
      virt_find_pte exKernel exWrap 0x234567 true 0
        = (.PTE_SUCCESS, some (pde_of exKernel exWrap 0x1000 0x234567)) ∧
      (do_ioctl_vtop exKernel exWrap (exVtop 0x234567) true true).2.phys_address = 0x33567 ∧
      (0xffffffffff + VIRT_ADDR.pt_index 0x234567) * 4096 + 0x234567 % 4096
        = 0x10000000033567) ∧
    PML4E.present (load64 exLow2M.mem (pml4e_of exKernel 0x1000 0x10)) = 1 ∧
    PDPTE.present (load64 exLow2M.mem (pdpte_of exKernel exLow2M 0x1000 0x10)) = 1 ∧
    PDPTE.large_page (load64 exLow2M.mem (pdpte_of exKernel exLow2M 0x1000 0x10)) = 0 ∧
    PDE.present (load64 exLow2M.mem (pde_of exKernel exLow2M 0x1000 0x10)) = 1 ∧
    PDE.large_page (load64 exLow2M.mem (pde_of exKernel exLow2M 0x1000 0x10)) = 1 ∧
    PTE.page_frame (load64 exLow2M.mem (pde_of exKernel exLow2M 0x1000 0x10)) = 0x800 ∧
    virt_find_pte exKernel exLow2M 0x10 true 0
      = (.PTE_SUCCESS, some (pde_of exKernel exLow2M 0x1000 0x10)) ∧
    do_ioctl_vtop exKernel exLow2M (exVtop 0x10) true true
      = (- EIO, { exVtop 0x10 with phys_address := 0, ppte := 0 }) ∧
    (0x800 + VIRT_ADDR.pt_index 0x10) * 4096 + 0x10 % 4096 = 0x800010 := by
  decide

/-- C13, amended: for every virtual address `v` whose level-4 and level-3 entries
are present (level 3 not large) and whose level-2 entry is present and marked
large, reached from the root the walk uses through non-null table pointers,
the walker called on a non-zero `v` succeeds and returns that level-2 entry
itself; and when `v` is at least 4096 and the frame number of the entry plus
the level-1 index of `v` is below `2^40` (as it is for every 2 MiB-aligned
frame), the translate operation returns 0 with physical address
`(frame number of the entry + level-1 index of v) * 4096 + v % 4096` and the
pointer to the entry. -/
theorem do_ioctl_vtop_2m (k : Kernel) (s : Machine) (r : LINPMEM_VTOP_INFO) (root : Nat)
    (hn : k.direct_map_nonnull)
    (hr : walk_root k r.associated_cr3 = some root) (hr0 : root ≠ 0)
    (hv : r.virt_address ≠ 0)
    (h4 : PML4E.present (load64 s.mem (pml4e_of k root r.virt_address)) = 1)
    (h3 : PDPTE.present (load64 s.mem (pdpte_of k s root r.virt_address)) = 1)
    (h3l : PDPTE.large_page (load64 s.mem (pdpte_of k s root r.virt_address)) = 0)
    (h2 : PDE.present (load64 s.mem (pde_of k s root r.virt_address)) = 1)
    (h2l : PDE.large_page (load64 s.mem (pde_of k s root r.virt_address)) = 1) :
    virt_find_pte k s r.virt_address true r.associated_cr3
      = (.PTE_SUCCESS, some (pde_of k s root r.virt_address)) ∧
    (4096 ≤ r.virt_address →
      PTE.page_frame (load64 s.mem (pde_of k s root r.virt_address))
        + VIRT_ADDR.pt_index r.virt_address < 2 ^ 40 →
      do_ioctl_vtop k s r true true =
        (0, { r with
              phys_address :=
                (PTE.page_frame (load64 s.mem (pde_of k s root r.virt_address))
                  + VIRT_ADDR.pt_index r.virt_address) * 4096 + r.virt_address % 4096
              ppte := pde_of k s root r.virt_address })) ∧
    (PTE.page_frame (load64 s.mem (pde_of k s root r.virt_address)) % 2 ^ 9 = 0 →
      PTE.page_frame (load64 s.mem (pde_of k s root r.virt_address))
        + VIRT_ADDR.pt_index r.virt_address < 2 ^ 40) := by
  refine ⟨?_, ?_, ?_⟩
  · rw [virt_find_pte_of_root k s _ _ root hv hr hr0]
    exact virt_find_pte_pml4_2m k s root _ hn h4 h3 h3l h2 h2l
  · intro hv4 hfit
    have hw : virt_find_pte k s (r.virt_address - VIRT_ADDR.offset r.virt_address) true
        r.associated_cr3 = (.PTE_SUCCESS, some (pde_of k s root r.virt_address)) := by
      rw [virt_find_pte_of_root k s _ _ root (strip_ne_zero _ hv4) hr hr0,
        ← pde_of_strip k s root r.virt_address]
      apply virt_find_pte_pml4_2m k s root _ hn
      · rw [pml4e_of_strip]; exact h4
      · rw [pdpte_of_strip]; exact h3
      · rw [pdpte_of_strip]; exact h3l
      · rw [pde_of_strip]; exact h2
      · rw [pde_of_strip]; exact h2l
    have hl : ¬ (PTE.large_page (load64 s.mem (pde_of k s root r.virt_address)) = 0) := by
      have : PTE.large_page (load64 s.mem (pde_of k s root r.virt_address)) = 1 := h2l
      omega
    rw [do_ioctl_vtop_of_success k s r _ hv hw h2, if_neg hl, Nat.mod_eq_of_lt hfit]
  · intro ha
    simp only [PTE.page_frame, VIRT_ADDR.pt_index] at ha ⊢
    omega

/-- Witness for C13, amended: in `exLow` the address `0x234567` lies in the 2 MiB
page at `0x200000` on frame `0x800`; the walker returns the level-2 entry at
`0xffff888000003008` and the translation is `(0x800 + 0x34) * 4096 + 0x567`. -/
theorem do_ioctl_vtop_2m_witness :
    virt_find_pte exKernel exLow 0x234567 true 0 = (.PTE_SUCCESS, some 0xffff888000003008) ∧
    do_ioctl_vtop exKernel exLow (exVtop 0x234567) true true
      = (0, { exVtop 0x234567 with phys_address := 0x834567, ppte := 0xffff888000003008 }) := by
  have t := do_ioctl_vtop_2m exKernel exLow (exVtop 0x234567) 0x1000 exKernel_direct_map_nonnull
    (by decide) (by decide) (by decide) (by decide) (by decide) (by decide) (by decide)
    (by decide)
  refine ⟨t.1.trans (by decide), (t.2.1 (by decide) (t.2.2 (by decide))).trans (by decide)⟩

/-- C14: for every non-zero virtual address (and a non-null out-pointer), a walk
that does not return `PTE_SUCCESS` returns `PTE_ERROR` and has stored `NULL` to
the out-pointer, never a partially resolved entry; a clear present bit in the
entry selected at level 4, 3 or 2, or at level 1 below a level-2 entry that is
not large, makes the walk fail in this way; and whenever the walk returns
`PTE_SUCCESS` it has stored a non-null entry pointer and that entry has its
present bit set. -/
theorem virt_find_pte_present (k : Kernel) (s : Machine) (v f : Nat) (hv : v ≠ 0) :
    ((virt_find_pte k s v true f).1 ≠ .PTE_SUCCESS →
      virt_find_pte k s v true f = (.PTE_ERROR, some 0)) ∧
    (∀ root, walk_root k f = some root →
      (PML4E.present (load64 s.mem (pml4e_of k root v)) = 0 ∨
        PDPTE.present (load64 s.mem (pdpte_of k s root v)) = 0 ∨
        PDE.present (load64 s.mem (pde_of k s root v)) = 0 ∨
        (PDE.large_page (load64 s.mem (pde_of k s root v)) = 0 ∧
          PTE.present (load64 s.mem (pte_of k s root v)) = 0)) →
      virt_find_pte k s v true f = (.PTE_ERROR, some 0)) ∧
    ((virt_find_pte k s v true f).1 = .PTE_SUCCESS →
      ∃ p, virt_find_pte k s v true f = (.PTE_SUCCESS, some p) ∧ p ≠ 0 ∧
        PTE.present (load64 s.mem p) = 1) := by
  refine ⟨?_, ?_, ?_⟩
  · intro h
    rcases virt_find_pte_fail_null k s v f hv with ⟨p, e⟩ | e
    · rw [e] at h; exact absurd rfl h
    · exact e
  · intro root hr hc
    rw [virt_find_pte_eq k s v f hv, hr]
    dsimp only
    split_ifs
    · rfl
    · rcases virt_find_pte_pml4_cases k s root v with
        e | ⟨h4, h3, -, h2, ⟨hl, -⟩ | ⟨hl, h1, -⟩⟩
      · exact e
      · rcases hc with c | c | c | c <;> omega
      · rcases hc with c | c | c | c <;> omega
  · intro h
    generalize hfd : virt_find_pte k s v true f = found at h
    obtain ⟨st, out⟩ := found
    dsimp only at h
    subst h
    obtain ⟨p, hp, hp0, hpr, -⟩ := virt_find_pte_success k s v true f out hfd
    subst hp
    exact ⟨p, rfl, hp0, hpr⟩

/-- Witness for C14: in `exLow` nothing is mapped at `0x80000000` (the level-3
entry is not present) and the walk returns `PTE_ERROR` with a null entry; the
walk for `0x5010` succeeds and its entry is present. -/
theorem virt_find_pte_present_witness :
    virt_find_pte exKernel exLow 0x80000000 true 0 = (.PTE_ERROR, some 0) ∧
    ∃ p, virt_find_pte exKernel exLow 0x5010 true 0 = (.PTE_SUCCESS, some p) ∧ p ≠ 0 ∧
      PTE.present (load64 exLow.mem p) = 1 :=
  ⟨(virt_find_pte_present exKernel exLow 0x80000000 0 (by decide)).2.1 0x1000 (by decide)
      (Or.inr (Or.inl (by decide))),
    (virt_find_pte_present exKernel exLow 0x5010 0 (by decide)).2.2 (by decide)⟩

/-- Counterexample to C15 as stated: in `exLow` the level-3 entry selected for
`0x40000000` is present and marked large (a 1 GiB page) and the level-3 entry
selected for `0x80000000` is not present; the walker returns the same status
`PTE_ERROR` for both. -/
theorem virt_find_pte_huge_page_same_status :
    PDPTE.present (load64 exLow.mem (pdpte_of exKernel exLow 0x1000 0x40000000)) = 1 ∧
    PDPTE.large_page (load64 exLow.mem (pdpte_of exKernel exLow 0x1000 0x40000000)) = 1 ∧
    PDPTE.present (load64 exLow.mem (pdpte_of exKernel exLow 0x1000 0x80000000)) = 0 ∧
    (virt_find_pte exKernel exLow 0x40000000 true 0).1 = .PTE_ERROR ∧
    (virt_find_pte exKernel exLow 0x80000000 true 0).1 = .PTE_ERROR ∧
    (virt_find_pte exKernel exLow 0x40000000 true 0).1
      = (virt_find_pte exKernel exLow 0x80000000 true 0).1 := by
  decide

/-- C15, amended: when the level-3 entry selected for a non-zero virtual address
is present and marked large (a 1 GiB page), `virt_find_pte` fails: it returns
`PTE_ERROR` with a null entry, which is the status it also returns when an
entry is not present.  No call of `virt_find_pte` returns
`PTE_ERROR_HUGE_PAGE`: its status is always `PTE_SUCCESS` or `PTE_ERROR`. -/
theorem virt_find_pte_huge_page (k : Kernel) (s : Machine) (v f root : Nat) (hv : v ≠ 0)
    (hr : walk_root k f = some root)
    (h3 : PDPTE.present (load64 s.mem (pdpte_of k s root v)) = 1)
    (h3l : PDPTE.large_page (load64 s.mem (pdpte_of k s root v)) = 1) :
    virt_find_pte k s v true f = (.PTE_ERROR, some 0) ∧
    ∀ (k' : Kernel) (s' : Machine) (v' f' : Nat) (b' : Bool),
      (virt_find_pte k' s' v' b' f').1 = .PTE_SUCCESS ∨
      (virt_find_pte k' s' v' b' f').1 = .PTE_ERROR := by
  constructor
  · rw [virt_find_pte_eq k s v f hv, hr]
    dsimp only
    split_ifs
    · rfl
    · exact virt_find_pte_pml4_1g k s root v h3 h3l
  · intro k' s' v' f' b'
    rcases virt_find_pte_status k' s' v' f' b' with h | ⟨p, h⟩
    · exact Or.inr h
    · rw [h]; exact Or.inl rfl

/-- Witness for C15, amended: the 1 GiB page of `exLow` at `0x40000000`. -/
theorem virt_find_pte_huge_page_witness :
    virt_find_pte exKernel exLow 0x40000000 true 0 = (.PTE_ERROR, some 0) :=
  (virt_find_pte_huge_page exKernel exLow 0x40000000 0 0x1000 (by decide) (by decide)
    (by decide) (by decide)).1

/-- C16: when a non-zero foreign root is supplied whose frame number is not a
valid physical frame, `virt_find_pte` returns `PTE_ERROR` and the only value
it can have stored to the out-pointer is `NULL` (which it has stored whenever
the address is non-zero and the out-pointer non-null); the result is the same
in every machine state, so no table is read.  When the foreign root is zero,
the walk for a non-zero address is the walk from the root of the current
context, the CR3 register value masked with `CR3_ADDR_MASK`: it fails if that
value is zero; register values that agree under the mask give the same result;
the level-4 entry read is the one the address selects in the table at that
root, and the walk fails if it is not present; when the entries the address
selects from that root are present (the direct map giving no null pointer) the
walk returns the large level-2 entry or the level-1 entry reached from that
root; and every entry the walk resolves is one of these two, reached through
present entries. -/
theorem virt_find_pte_root (k : Kernel) (s : Machine) (v f : Nat) (b : Bool) :
    (f ≠ 0 → k.pfn_valid (f / 4096) = false →
      (virt_find_pte k s v b f).1 = .PTE_ERROR ∧
      ((virt_find_pte k s v b f).2 = none ∨ (virt_find_pte k s v b f).2 = some 0) ∧
      (v ≠ 0 → b = true → virt_find_pte k s v b f = (.PTE_ERROR, some 0)) ∧
      ∀ s' : Machine, virt_find_pte k s' v b f = virt_find_pte k s v b f) ∧
    (v ≠ 0 →
      (k.native_read_cr3 &&& k.CR3_ADDR_MASK = 0 →
        virt_find_pte k s v true 0 = (.PTE_ERROR, some 0)) ∧
      (∀ c, c &&& k.CR3_ADDR_MASK = k.native_read_cr3 &&& k.CR3_ADDR_MASK →
        virt_find_pte { k with native_read_cr3 := c } s v true 0 = virt_find_pte k s v true 0) ∧
      (k.native_read_cr3 &&& k.CR3_ADDR_MASK ≠ 0 →
        (PML4E.present
            (load64 s.mem (pml4e_of k (k.native_read_cr3 &&& k.CR3_ADDR_MASK) v)) = 0 →
          virt_find_pte k s v true 0 = (.PTE_ERROR, some 0)) ∧
        (k.direct_map_nonnull →
          PML4E.present
            (load64 s.mem (pml4e_of k (k.native_read_cr3 &&& k.CR3_ADDR_MASK) v)) = 1 →
          PDPTE.present
            (load64 s.mem (pdpte_of k s (k.native_read_cr3 &&& k.CR3_ADDR_MASK) v)) = 1 →
          PDPTE.large_page
            (load64 s.mem (pdpte_of k s (k.native_read_cr3 &&& k.CR3_ADDR_MASK) v)) = 0 →
          PDE.present
            (load64 s.mem (pde_of k s (k.native_read_cr3 &&& k.CR3_ADDR_MASK) v)) = 1 →
          (PDE.large_page
              (load64 s.mem (pde_of k s (k.native_read_cr3 &&& k.CR3_ADDR_MASK) v)) = 1 →
            virt_find_pte k s v true 0
              = (.PTE_SUCCESS, some (pde_of k s (k.native_read_cr3 &&& k.CR3_ADDR_MASK) v))) ∧
          (PDE.large_page
              (load64 s.mem (pde_of k s (k.native_read_cr3 &&& k.CR3_ADDR_MASK) v)) = 0 →
            PTE.present
              (load64 s.mem (pte_of k s (k.native_read_cr3 &&& k.CR3_ADDR_MASK) v)) = 1 →
            virt_find_pte k s v true 0
              = (.PTE_SUCCESS, some (pte_of k s (k.native_read_cr3 &&& k.CR3_ADDR_MASK) v)))) ∧
        (∀ p, virt_find_pte k s v true 0 = (.PTE_SUCCESS, some p) →
          PML4E.present
            (load64 s.mem (pml4e_of k (k.native_read_cr3 &&& k.CR3_ADDR_MASK) v)) = 1 ∧
          PDPTE.present
            (load64 s.mem (pdpte_of k s (k.native_read_cr3 &&& k.CR3_ADDR_MASK) v)) = 1 ∧
          PDE.present
            (load64 s.mem (pde_of k s (k.native_read_cr3 &&& k.CR3_ADDR_MASK) v)) = 1 ∧
          (p = pde_of k s (k.native_read_cr3 &&& k.CR3_ADDR_MASK) v ∨
            p = pte_of k s (k.native_read_cr3 &&& k.CR3_ADDR_MASK) v)))) := by
  constructor
  · intro hf hp
    have hroot : walk_root k f = none := by
      have hp' : k.pfn_valid (__phys_to_pfn f) = false := hp
      simp [walk_root, hf, hp']
    have key : ∀ s' : Machine, virt_find_pte k s' v b f
        = if v = 0 ∨ b = false then (.PTE_ERROR, none) else (.PTE_ERROR, some 0) := by
      intro s'
      by_cases hg : v = 0 ∨ b = false
      · rw [virt_find_pte_guard k s' v f b hg, if_pos hg]
      · have hv : v ≠ 0 := fun h => hg (Or.inl h)
        have hb : b = true := by
          cases b
          · exact absurd (Or.inr rfl) hg
          · rfl
        subst hb
        rw [virt_find_pte_eq k s' v f hv, hroot, if_neg hg]
    refine ⟨?_, ?_, ?_, ?_⟩
    · rw [key s]; split_ifs <;> rfl
    · rw [key s]; split_ifs
      · exact Or.inl rfl
      · exact Or.inr rfl
    · intro hv hb
      rw [key s, if_neg (by simp [hv, hb])]
    · intro s'
      rw [key s', key s]
  · intro hv
    have hroot : walk_root k 0 = some (k.native_read_cr3 &&& k.CR3_ADDR_MASK) := rfl
    refine ⟨?_, fun c hc => virt_find_pte_cr3 k c s v true hc, ?_⟩
    · intro h0
      rw [virt_find_pte_eq k s v 0 hv, hroot]
      simp only [h0, if_true]
    · intro h0
      obtain ⟨-, a, b, c⟩ := virt_find_pte_walk k s v 0 _ hv hroot h0
      exact ⟨a, b, c⟩

/-- Witness for C16: frame `0x5000000` is not valid for `exKernel`, and a walk of
the mapped address `0x5010` with the foreign root `0x5000000000` fails with a
null entry.  With foreign root 0 the walk starts at the CR3 root `0x1000` and
resolves the level-1 entry at `0xffff888000004028`, also when the register
holds `0x1805` (the same root with low bits set); the walk of `0x8000000010`,
whose level-4 entry in the table at `0x1000` is not present, fails. -/
theorem virt_find_pte_root_witness :
    exKernel.pfn_valid (0x5000000000 / 4096) = false ∧
    virt_find_pte exKernel exLow 0x5010 true 0x5000000000 = (.PTE_ERROR, some 0) ∧
    virt_find_pte exKernel exLow 0x5010 true 0 = (.PTE_SUCCESS, some 0xffff888000004028) ∧
    virt_find_pte { exKernel with native_read_cr3 := 0x1805 } exLow 0x5010 true 0
      = (.PTE_SUCCESS, some 0xffff888000004028) ∧
    virt_find_pte exKernel exLow 0x8000000010 true 0 = (.PTE_ERROR, some 0) := by
  have t := virt_find_pte_root exKernel exLow 0x5010 0x5000000000 true
  have t2 := t.2 (by decide)
  have hs : virt_find_pte exKernel exLow 0x5010 true 0
      = (.PTE_SUCCESS, some 0xffff888000004028) :=
    ((((t2.2.2 (by decide)).2.1 exKernel_direct_map_nonnull (by decide) (by decide) (by decide)
      (by decide)).2 (by decide) (by decide))).trans (by decide)
  refine ⟨by decide, (t.1 (by decide) (by decide)).2.2.1 (by decide) rfl, hs, ?_, ?_⟩
  · exact (t2.2.1 0x1805 (by decide)).trans hs
  · exact (((virt_find_pte_root exKernel exLow 0x8000000010 0x5000000000 true).2
      (by decide)).2.2 (by decide)).1 (by decide)

/-- C17: `do_ioctl_read` (with the record copied in) rejects with `-EINVAL` every
request whose access type is none of 1, 2, 4, 8, 9 (0 included), and every
buffer-mode request whose size is 0 or greater than 4096 or whose buffer
pointer is null.  The caller's record is left as it was and the machine state
is unchanged except that the local `tmp` has been zeroed: the rogue state, the
live entry, the mutex and the ghost counter of remapper entries are the same,
for every kernel and every physical address, so the read path was not
entered. -/
theorem do_ioctl_read_rejects (k : Kernel) (s : Machine) (r : LINPMEM_DATA_TRANSFER)
    (writable : Bool)
    (h : (r.access_type ≠ 1 ∧ r.access_type ≠ 2 ∧ r.access_type ≠ 4 ∧ r.access_type ≠ 8 ∧
          r.access_type ≠ 9) ∨
        (r.access_type = 9 ∧
          (r.readbuffer_size = 0 ∨ 4096 < r.readbuffer_size ∨ r.readbuffer = 0))) :
    do_ioctl_read k s r true writable = .ret (- EINVAL, r) { s with tmp := 0 } :=
  do_ioctl_read_reject k s r writable h

/-- Witness for C17: access types 0 and 3, and buffer requests of size 0, of size
4097 and with a null buffer are all rejected with `-EINVAL`. -/
theorem do_ioctl_read_rejects_witness :
    do_ioctl_read exKernel exMachine (exRequest 0x123000 0) true true
      = .ret (- EINVAL, exRequest 0x123000 0) { exMachine with tmp := 0 } ∧
    do_ioctl_read exKernel exMachine (exRequest 0x123000 3) true true
      = .ret (- EINVAL, exRequest 0x123000 3) { exMachine with tmp := 0 } ∧
    do_ioctl_read exKernel exMachine (exBufRequest 0x123000 0x5000 0) true true
      = .ret (- EINVAL, exBufRequest 0x123000 0x5000 0) { exMachine with tmp := 0 } ∧
    do_ioctl_read exKernel exMachine (exBufRequest 0x123000 0x5000 4097) true true
      = .ret (- EINVAL, exBufRequest 0x123000 0x5000 4097) { exMachine with tmp := 0 } ∧
    do_ioctl_read exKernel exMachine (exBufRequest 0x123000 0 0x100) true true
      = .ret (- EINVAL, exBufRequest 0x123000 0 0x100) { exMachine with tmp := 0 } :=
  ⟨do_ioctl_read_rejects _ _ _ _ (Or.inl (by decide)),
   do_ioctl_read_rejects _ _ _ _ (Or.inl (by decide)),
   do_ioctl_read_rejects _ _ _ _ (Or.inr (by decide)),
   do_ioctl_read_rejects _ _ _ _ (Or.inr (by decide)),
   do_ioctl_read_rejects _ _ _ _ (Or.inr (by decide))⟩

/-- C19: whenever the walker fails for the page of a requested non-zero virtual
address, for whatever cause, `do_ioctl_vtop` (with the record copied in and
out) returns `-EIO` and the record copied back has `phys_address` 0 and `ppte`
null, the other fields as the caller gave them.  The result is this one value
both when an entry is not present and when a 1 GiB page is met. -/
theorem do_ioctl_vtop_walk_failure (k : Kernel) (s : Machine) (r : LINPMEM_VTOP_INFO)
    (hv : r.virt_address ≠ 0)
    (hfail : (virt_find_pte k s (r.virt_address - VIRT_ADDR.offset r.virt_address) true
      r.associated_cr3).1 ≠ .PTE_SUCCESS) :
    do_ioctl_vtop k s r true true = (- EIO, { r with phys_address := 0, ppte := 0 }) := by
  rw [do_ioctl_vtop_eq k s r hv, if_pos hfail]

/-- Witness for C19: in `exLow` the request for `0x80000010` (level-3 entry not
present) and the request for `0x40000010` (1 GiB page) both return `-EIO` with
`phys_address` 0 and `ppte` null. -/
theorem do_ioctl_vtop_walk_failure_witness :
    PDPTE.present (load64 exLow.mem (pdpte_of exKernel exLow 0x1000 0x80000010)) = 0 ∧
    do_ioctl_vtop exKernel exLow (exVtop 0x80000010) true true
      = (- EIO, { exVtop 0x80000010 with phys_address := 0, ppte := 0 }) ∧
    PDPTE.large_page (load64 exLow.mem (pdpte_of exKernel exLow 0x1000 0x40000010)) = 1 ∧
    do_ioctl_vtop exKernel exLow (exVtop 0x40000010) true true
      = (- EIO, { exVtop 0x40000010 with phys_address := 0, ppte := 0 }) ∧
    (do_ioctl_vtop exKernel exLow (exVtop 0x80000010) true true).1
      = (do_ioctl_vtop exKernel exLow (exVtop 0x40000010) true true).1 := by
  have a := do_ioctl_vtop_walk_failure exKernel exLow (exVtop 0x80000010) (by decide)
    (by decide)
  have b := do_ioctl_vtop_walk_failure exKernel exLow (exVtop 0x40000010) (by decide)
    (by decide)
  exact ⟨by decide, a, by decide, b, by rw [a, b]⟩

/-- C21: once `setup_pte_method` has succeeded, take any finite sequence of
`pte_mmap_read` calls, whatever each of them returns.  When the mutex was free
at setup all of them return.  After every returning sequence the saved
`original_pte` is still the entry found at setup, the live rogue entry has its
present bit set, and its frame number is the frame of the saved original entry
or the 40-bit frame field of a physical address asked for by one of the reads,
an address whose frame `pfn_valid` accepted; that field is the frame number
itself when `pfn_valid` accepts only frames below `2^40`.  A
`restore_pte_method` that returns after the sequence leaves the present bit set
and the frame number equal to the original frame, and it does return when the
mutex is free. -/
theorem rogue_entry_invariant (k : Kernel) (s0 s1 : Machine) (calls : List Call)
    (hsetup : setup_pte_method k s0 .g_pte_data = .ret 0 s1)
    (hreads : reads_only calls = true) :
    (s0.mutex_locked = false →
      ∃ s2, run_calls k s1 calls = some s2 ∧ s2.mutex_locked = false) ∧
    (∀ s2, run_calls k s1 calls = some s2 →
      s2.pte_data.original_pte = s1.pte_data.original_pte ∧
      PTE.present (live_pte s2) = 1 ∧
      (PTE.page_frame (live_pte s2) = PTE.page_frame s1.pte_data.original_pte ∨
        ∃ X, X ∈ requested calls ∧ k.pfn_valid (__phys_to_pfn X) = true ∧
          PTE.page_frame (live_pte s2) = __phys_to_pfn X % 2 ^ 40 ∧
          (k.frames_fit → PTE.page_frame (live_pte s2) = __phys_to_pfn X)) ∧
      (s2.mutex_locked = false → ∃ s3, restore_pte_method k s2 .g_pte_data = .ret () s3) ∧
      (∀ s3, restore_pte_method k s2 .g_pte_data = .ret () s3 →
        PTE.present (live_pte s3) = 1 ∧
        PTE.page_frame (live_pte s3) = PTE.page_frame s1.pte_data.original_pte)) := by
  obtain ⟨hr, -, hva, -, hp, ho, hpres, hpf, -, hm01⟩ := setup_success k s0 s1 _ hsetup
  constructor
  · intro hm0
    exact run_calls_released k s1 calls hva hp (by rw [hm01]; exact hm0)
      (released_of_reads_only calls hreads)
  · intro s2 hrun
    have hpd := run_calls_pte_data k s1 s2 calls hrun
    have hrestore : ∀ s3, restore_pte_method k s2 .g_pte_data = .ret () s3 →
        PTE.present (live_pte s3) = 1 ∧
        PTE.page_frame (live_pte s3) = PTE.page_frame s1.pte_data.original_pte := by
      intro s3 h3
      by_cases hm : s2.mutex_locked = true
      · rw [restore_blocked k s2 (by rw [hpd]; exact hr) (by rw [hpd]; exact hpf)
          (by rw [hpd]; exact hva) hm] at h3
        cases h3
      · have hm' : s2.mutex_locked = false := by simpa using hm
        obtain ⟨s3', h3', hl, -, -⟩ := restore_ready k s2 (by rw [hpd]; exact hr)
          (by rw [hpd]; exact hpf) (by rw [hpd]; exact hva) (by rw [hpd]; exact hp) hm'
        rw [h3'] at h3
        cases h3
        rw [hl, hpd, present_mod_U64, page_frame_mod_U64]
        exact ⟨hpres, rfl⟩
    have hfree : s2.mutex_locked = false →
        ∃ s3, restore_pte_method k s2 .g_pte_data = .ret () s3 := by
      intro hm
      obtain ⟨s3, h3, -⟩ := restore_ready k s2 (by rw [hpd]; exact hr)
        (by rw [hpd]; exact hpf) (by rw [hpd]; exact hva) (by rw [hpd]; exact hp) hm
      exact ⟨s3, h3⟩
    refine ⟨by rw [hpd], ?_, ?_, hfree, hrestore⟩
    · rcases reads_live k s1 s2 calls hva hp hreads hrun with e | ⟨X, -, -, e⟩
      · rw [e, ← ho]; exact hpres
      · rw [e, present_mod_U64, set_page_frame_present]; exact hpres
    · rcases reads_live k s1 s2 calls hva hp hreads hrun with e | ⟨X, hX, hv, e⟩
      · left; rw [e, ← ho]
      · right
        have hf : PTE.page_frame (live_pte s2) = __phys_to_pfn X % 2 ^ 40 := by
          rw [e, page_frame_mod_U64, page_frame_set_page_frame]
        refine ⟨X, hX, hv, hf, ?_⟩
        intro hfit
        rw [hf]
        exact Nat.mod_eq_of_lt (hfit _ hv)

/-- Witness for C21: on the example machine setup succeeds; a misaligned qword
read of `0x123ffc` (returns 0 after the remap), a read of the invalid address
`0x7FFFFFFFF000` (returns 0 without a remap) and a 4-byte buffer read of
`0x7FFE0040` follow and return; the live entry is then present with frame
`0x7ffe0`, the frame of the last address, and after `restore_pte_method` it is
present with the original frame `0x42`. -/
theorem rogue_entry_invariant_witness :
    setup_pte_method exKernel exBoot .g_pte_data = .ret 0 exSetUp ∧
    ∃ s2 s3,
      run_calls exKernel exSetUp
        [.read 0x123ffc 0 8 PHYS_QWORD_READ, .read 0x7FFFFFFFF000 0 8 PHYS_QWORD_READ,
         .read 0x7FFE0040 0x5000 4 PHYS_BUFFER_READ] = some s2 ∧
      PTE.present (live_pte s2) = 1 ∧
      PTE.page_frame (live_pte s2) = 0x7ffe0 ∧
      restore_pte_method exKernel s2 .g_pte_data = .ret () s3 ∧
      PTE.present (live_pte s3) = 1 ∧ PTE.page_frame (live_pte s3) = 0x42 := by
  have hsetup : setup_pte_method exKernel exBoot .g_pte_data = .ret 0 exSetUp := by
    rfl
  have t := rogue_entry_invariant exKernel exBoot exSetUp
    [.read 0x123ffc 0 8 PHYS_QWORD_READ, .read 0x7FFFFFFFF000 0 8 PHYS_QWORD_READ,
     .read 0x7FFE0040 0x5000 4 PHYS_BUFFER_READ] hsetup rfl
  obtain ⟨s2, h2, hm2⟩ := t.1 rfl
  obtain ⟨-, hpres, -, hex, hres⟩ := t.2 s2 h2
  obtain ⟨s3, h3⟩ := hex hm2
  have hd : (run_calls exKernel exSetUp
      [.read 0x123ffc 0 8 PHYS_QWORD_READ, .read 0x7FFFFFFFF000 0 8 PHYS_QWORD_READ,
       .read 0x7FFE0040 0x5000 4 PHYS_BUFFER_READ]).map
        (fun s => PTE.page_frame (live_pte s)) = some 0x7ffe0 := by
    decide
  rw [h2] at hd
  exact ⟨hsetup, s2, s3, h2, hpres, Option.some.inj hd, h3, hres s3 h3⟩

/-- Counterexample to C22 as stated: in `exLow` the foreign root `0x1008` has a
valid frame and is non-zero, and clearing its low 12 bits gives `0x1000`; the
walk of `0x5010` from `0x1008` reads the level-4 entry at
`phys_to_virt 0x1008` (the second slot of the table, which is empty) and fails
with `PTE_ERROR`, while the walk from `0x1000` succeeds with the level-1 entry
at `0xffff888000004028`. -/
theorem virt_find_pte_foreign_root_low_bits :
    (0x1008 ≠ 0 ∧ exKernel.pfn_valid (__phys_to_pfn 0x1008) = true ∧
      0x1008 - 0x1008 % 2 ^ 12 = 0x1000) ∧
    virt_find_pte exKernel exLow 0x5010 true 0x1008 = (.PTE_ERROR, some 0) ∧
    virt_find_pte exKernel exLow 0x5010 true 0x1000
      = (.PTE_SUCCESS, some 0xffff888000004028) := by
  decide

/-- C22 (amended): for a non-zero virtual address `v` and a non-zero foreign root
`r` whose frame is valid, `virt_find_pte` takes the top-level table base from
the whole value of `r`, low 12 bits included: the level-4 entry it reads is the
one at `phys_to_virt r + 8 * pml4_index v`.  The walk fails with a null entry
when `phys_to_virt r` is null or that level-4 entry is not present; when the
entries `v` selects from the table at `r` are present (the direct map giving
no null pointer) it returns the large level-2 entry or the level-1 entry
reached from that base; and every entry it resolves is one of these two,
reached through present entries. -/
theorem virt_find_pte_foreign_root (k : Kernel) (s : Machine) (v r : Nat)
    (hv : v ≠ 0) (hr : r ≠ 0) (hp : k.pfn_valid (__phys_to_pfn r) = true) :
    pml4e_of k r v = k.phys_to_virt r + 8 * VIRT_ADDR.pml4_index v ∧
    (k.phys_to_virt r = 0 → virt_find_pte k s v true r = (.PTE_ERROR, some 0)) ∧
    (PML4E.present (load64 s.mem (pml4e_of k r v)) = 0 →
      virt_find_pte k s v true r = (.PTE_ERROR, some 0)) ∧
    (k.direct_map_nonnull →
      PML4E.present (load64 s.mem (pml4e_of k r v)) = 1 →
      PDPTE.present (load64 s.mem (pdpte_of k s r v)) = 1 →
      PDPTE.large_page (load64 s.mem (pdpte_of k s r v)) = 0 →
      PDE.present (load64 s.mem (pde_of k s r v)) = 1 →
      (PDE.large_page (load64 s.mem (pde_of k s r v)) = 1 →
        virt_find_pte k s v true r = (.PTE_SUCCESS, some (pde_of k s r v))) ∧
      (PDE.large_page (load64 s.mem (pde_of k s r v)) = 0 →
        PTE.present (load64 s.mem (pte_of k s r v)) = 1 →
        virt_find_pte k s v true r = (.PTE_SUCCESS, some (pte_of k s r v)))) ∧
    (∀ p, virt_find_pte k s v true r = (.PTE_SUCCESS, some p) →
      PML4E.present (load64 s.mem (pml4e_of k r v)) = 1 ∧
      PDPTE.present (load64 s.mem (pdpte_of k s r v)) = 1 ∧
      PDE.present (load64 s.mem (pde_of k s r v)) = 1 ∧
      (p = pde_of k s r v ∨ p = pte_of k s r v)) := by
  have hroot : walk_root k r = some r := by simp [walk_root, hr, hp]
  exact ⟨rfl, virt_find_pte_walk k s v r r hv hroot hr⟩

/-- Witness for C22 (amended): in `exLow` the walk of `0x5010` from the foreign
root `0x1008` reads the level-4 entry at `0xffff888000001008`, which is not
present, and fails; from the foreign root `0x1000` it reads the one at
`0xffff888000001000` and resolves the level-1 entry at `0xffff888000004028`. -/
theorem virt_find_pte_foreign_root_witness :
    pml4e_of exKernel 0x1008 0x5010 = 0xffff888000001008 ∧
    virt_find_pte exKernel exLow 0x5010 true 0x1008 = (.PTE_ERROR, some 0) ∧
    pml4e_of exKernel 0x1000 0x5010 = 0xffff888000001000 ∧
    virt_find_pte exKernel exLow 0x5010 true 0x1000
      = (.PTE_SUCCESS, some 0xffff888000004028) := by
  have t := virt_find_pte_foreign_root exKernel exLow 0x5010 0x1008 (by decide) (by decide)
    (by decide)
  have u := virt_find_pte_foreign_root exKernel exLow 0x5010 0x1000 (by decide) (by decide)
    (by decide)
  exact ⟨t.1.trans (by decide), t.2.2.1 (by decide), u.1.trans (by decide),
    ((u.2.2.2.1 exKernel_direct_map_nonnull (by decide) (by decide) (by decide)
      (by decide)).2 (by decide) (by decide)).trans (by decide)⟩

/-- C23: for every 64-bit value `x` the fields of `VIRT_ADDR` are
`offset = x mod 2^12`, `pt_index = (x >> 12) mod 512`,
`pd_index = (x >> 21) mod 512`, `pdpt_index = (x >> 30) mod 512`,
`pml4_index = (x >> 39) mod 512` and `reserved = x >> 48`, and `x` is recovered
exactly as `offset + pt_index * 2^12 + pd_index * 2^21 + pdpt_index * 2^30
+ pml4_index * 2^39 + reserved * 2^48`. -/
theorem virt_addr_fields (x : Nat) (hx : x < 2 ^ 64) :
    VIRT_ADDR.offset x = x % 2 ^ 12 ∧
    VIRT_ADDR.pt_index x = (x >>> 12) % 512 ∧
    VIRT_ADDR.pd_index x = (x >>> 21) % 512 ∧
    VIRT_ADDR.pdpt_index x = (x >>> 30) % 512 ∧
    VIRT_ADDR.pml4_index x = (x >>> 39) % 512 ∧
    VIRT_ADDR.reserved x = x >>> 48 ∧
    x = VIRT_ADDR.offset x + VIRT_ADDR.pt_index x * 2 ^ 12 + VIRT_ADDR.pd_index x * 2 ^ 21
          + VIRT_ADDR.pdpt_index x * 2 ^ 30 + VIRT_ADDR.pml4_index x * 2 ^ 39
          + VIRT_ADDR.reserved x * 2 ^ 48 := by
  simp only [VIRT_ADDR.offset, VIRT_ADDR.pt_index, VIRT_ADDR.pd_index, VIRT_ADDR.pdpt_index,
    VIRT_ADDR.pml4_index, VIRT_ADDR.reserved, Nat.shiftRight_eq_div_pow]
  refine ⟨trivial, ?_, ?_, ?_, ?_, ?_, ?_⟩ <;> omega

/-- Witness for C23: the fields of the rogue page address `0xffffffffc0002abc`. -/
theorem virt_addr_fields_witness :
    VIRT_ADDR.offset 0xffffffffc0002abc = 0xabc ∧
    VIRT_ADDR.pt_index 0xffffffffc0002abc = 2 ∧
    VIRT_ADDR.pd_index 0xffffffffc0002abc = 0 ∧
    VIRT_ADDR.pdpt_index 0xffffffffc0002abc = 511 ∧
    VIRT_ADDR.pml4_index 0xffffffffc0002abc = 511 ∧
    VIRT_ADDR.reserved 0xffffffffc0002abc = 0xffff ∧
    0xffffffffc0002abc = 0xabc + 2 * 2 ^ 12 + 0 * 2 ^ 21 + 511 * 2 ^ 30 + 511 * 2 ^ 39
      + 0xffff * 2 ^ 48 := by
  have t := virt_addr_fields 0xffffffffc0002abc (by decide)
  refine ⟨t.1.trans (by decide), t.2.1.trans (by decide), t.2.2.1.trans (by decide),
    t.2.2.2.1.trans (by decide), t.2.2.2.2.1.trans (by decide),
    t.2.2.2.2.2.1.trans (by decide), by decide⟩

/-- C24: when `pte_mmap_read` remaps (valid frame, rogue state set up, mutex
free, the saved original entry a 64-bit value), the call returns and the live
rogue entry it leaves is the saved original entry with only the 40-bit frame
field replaced: the frame field (bits 12 to 51) is `(phys_addr >> 12) mod 2^40`,
every bit below 12 and every bit from 52 up (present, writable, user,
write-through, cache-disable, accessed, dirty, bit 7, global, the ignored bits
and execute-disable) is the bit of the original entry, and `original_pte`
itself is unchanged. -/
theorem pte_mmap_read_entry_written (k : Kernel) (s : Machine)
    (phys_addr buf count access_mode : Nat)
    (hv : k.pfn_valid (phys_addr / 4096) = true)
    (hva : s.pte_data.rogue_va ≠ 0) (hp : s.pte_data.rogue_pte ≠ 0)
    (hm : s.mutex_locked = false) (ho : s.pte_data.original_pte < 2 ^ 64) :
    ∃ n s', pte_mmap_read k s .g_pte_data phys_addr buf count access_mode = .ret n s' ∧
      live_pte s' = PTE.set_page_frame s.pte_data.original_pte (phys_addr / 4096) ∧
      PTE.page_frame (live_pte s') = (phys_addr >>> 12) % 2 ^ 40 ∧
      live_pte s' % 2 ^ 12 = s.pte_data.original_pte % 2 ^ 12 ∧
      live_pte s' / 2 ^ 52 = s.pte_data.original_pte / 2 ^ 52 ∧
      (∀ i, i < 12 ∨ 52 ≤ i →
        (live_pte s').testBit i = s.pte_data.original_pte.testBit i) ∧
      s'.pte_data.original_pte = s.pte_data.original_pte := by
  obtain ⟨n, s', h, -, hpd, hent, -⟩ := pte_mmap_read_returns k s phys_addr buf count
    access_mode hv hva hm hp
  have hl : live_pte s' = PTE.set_page_frame s.pte_data.original_pte (phys_addr / 4096) := by
    rw [live_pte, hent, hpd, load64_store64_same, read_target]
    exact Nat.mod_eq_of_lt (set_page_frame_lt _ _ ho)
  refine ⟨n, s', h, hl, ?_, ?_, ?_, ?_, by rw [hpd]⟩
  · rw [hl, page_frame_set_page_frame, Nat.shiftRight_eq_div_pow]
  · rw [hl, set_page_frame_low]
  · rw [hl, set_page_frame_high]
  · intro i hi
    rw [hl]
    exact testBit_of_low_high _ _ i (set_page_frame_low _ _) (set_page_frame_high _ _) hi

/-- Witness for C24: after a qword read of `0x7FFE0040` on the example machine the
live entry is `0x800000007ffe0063`: the flags `0x063` and the execute-disable
bit of the saved `0x8000000000042063`, with frame `0x7ffe0`. -/
theorem pte_mmap_read_entry_written_witness :
    ∃ n s', pte_mmap_read exKernel exMachine .g_pte_data 0x7FFE0040 0 8 PHYS_QWORD_READ
        = .ret n s' ∧
      live_pte s' = 0x800000007ffe0063 ∧
      s'.pte_data.original_pte = 0x8000000000042063 := by
  obtain ⟨n, s', h, hl, -, -, -, -, ho⟩ := pte_mmap_read_entry_written exKernel exMachine
    0x7FFE0040 0 8 PHYS_QWORD_READ (by decide) (by decide) (by decide) rfl (by decide)
  exact ⟨n, s', h, hl.trans (by decide), ho.trans (by decide)⟩

/-- C25: whenever the walk of `do_ioctl_vtop` for a non-zero virtual address `v`
resolves an entry marked large (a 2 MiB page) whose 40-bit frame field has its
low 9 bits zero (a 2 MiB-aligned base), the call returns 0 and the physical
address it computes is `frame * 4096 + v mod 2^21`, the page base plus the low
21 bits of `v`; it has the same in-page offset as `v` and lies in the 2 MiB
page that starts at `frame * 4096`. -/
theorem do_ioctl_vtop_large_page_address (k : Kernel) (s : Machine) (r : LINPMEM_VTOP_INFO)
    (p : Nat) (hv : r.virt_address ≠ 0)
    (hw : virt_find_pte k s (r.virt_address - VIRT_ADDR.offset r.virt_address) true
      r.associated_cr3 = (.PTE_SUCCESS, some p))
    (hl : PTE.large_page (load64 s.mem p) = 1)
    (ha : PTE.page_frame (load64 s.mem p) % 2 ^ 9 = 0) :
    (do_ioctl_vtop k s r true true).1 = 0 ∧
    (do_ioctl_vtop k s r true true).2.phys_address
      = PTE.page_frame (load64 s.mem p) * 4096 + r.virt_address % 2 ^ 21 ∧
    (do_ioctl_vtop k s r true true).2.phys_address % 4096 = r.virt_address % 4096 ∧
    (do_ioctl_vtop k s r true true).2.phys_address / 2 ^ 21
      = PTE.page_frame (load64 s.mem p) * 4096 / 2 ^ 21 := by
  obtain ⟨q, hq, -, hpres, -⟩ := virt_find_pte_success k s _ _ _ _ hw
  rw [← Option.some.inj hq] at hpres
  have hl' : ¬ (PTE.large_page (load64 s.mem p) = 0) := by omega
  have hf : PTE.page_frame (load64 s.mem p) < 2 ^ 40 := by
    simp only [PTE.page_frame]; omega
  have hfit : PTE.page_frame (load64 s.mem p) + VIRT_ADDR.pt_index r.virt_address < 2 ^ 40 := by
    simp only [VIRT_ADDR.pt_index]; omega
  rw [do_ioctl_vtop_of_success k s r p hv hw hpres, if_neg hl', Nat.mod_eq_of_lt hfit]
  have e : (PTE.page_frame (load64 s.mem p) + VIRT_ADDR.pt_index r.virt_address) * 4096
      + r.virt_address % 4096
      = PTE.page_frame (load64 s.mem p) * 4096 + r.virt_address % 2 ^ 21 := by
    simp only [VIRT_ADDR.pt_index]; omega
  refine ⟨rfl, e, ?_, ?_⟩
  · show ((PTE.page_frame (load64 s.mem p) + VIRT_ADDR.pt_index r.virt_address) * 4096
      + r.virt_address % 4096) % 4096 = _
    omega
  · show ((PTE.page_frame (load64 s.mem p) + VIRT_ADDR.pt_index r.virt_address) * 4096
      + r.virt_address % 4096) / 2 ^ 21 = _
    rw [e]
    omega

/-- Witness for C25: in `exLow` the address `0x234567` lies in the large page on
frame `0x800`, whose low 9 bits are zero; the computed physical address is
`0x800 * 4096 + 0x34567`. -/
theorem do_ioctl_vtop_large_page_address_witness :
    PTE.page_frame (load64 exLow.mem 0xffff888000003008) = 0x800 ∧
    0x800 % 2 ^ 9 = 0 ∧
    (do_ioctl_vtop exKernel exLow (exVtop 0x234567) true true).2.phys_address
      = 0x800 * 4096 + 0x234567 % 2 ^ 21 ∧
    (do_ioctl_vtop exKernel exLow (exVtop 0x234567) true true).2.phys_address % 4096
      = 0x567 := by
  have t := do_ioctl_vtop_large_page_address exKernel exLow (exVtop 0x234567)
    0xffff888000003008 (by decide) (by decide) (by decide) (by decide)
  exact ⟨by decide, by decide, t.2.1.trans (by decide), t.2.2.1.trans (by decide)⟩

end Linpmem
